import Mathlib

/-!
Verification of the export/normalization subsystem of the property-search
repository (`src/utils/export_utils.py`) against its specification.

The Python code is shallowly embedded: dynamically-typed Python values become
the inductive type `PyVal`; Python dictionaries become insertion-ordered
association lists; operations that can raise (`.get` on a non-dict,
`", ".join` on a non-string-list, format specs on unsupported types, ...)
return `Except String`; `datetime.now()` becomes an explicit `DT` parameter.
-/

set_option maxHeartbeats 1000000

namespace ExportUtils

/-- A dynamically-typed Python/JSON value as manipulated by `export_utils.py`:
`None`, booleans, integers, strings, lists, and string-keyed dicts
(insertion-ordered association lists). -/
inductive PyVal where
  | none
  | bool (b : Bool)
  | int (n : Int)
  | str (s : String)
  | list (xs : List PyVal)
  | dict (es : List (String × PyVal))
deriving Repr

/-- Python truthiness (`bool(v)`): `None` and `False` are falsy, `0` is falsy,
the empty string / list / dict are falsy, everything else truthy. -/
def truthy : PyVal → Bool
  | .none => false
  | .bool b => b
  | .int n => n != 0
  | .str s => !(s == "")
  | .list xs => !xs.isEmpty
  | .dict es => !es.isEmpty

/-- `d.get(k, dflt)` on an embedded dict (association-list lookup with
default). -/
def getD (es : List (String × PyVal)) (k : String) (dflt : PyVal) : PyVal :=
  (es.lookup k).getD dflt

/-- `k in d` for an embedded dict. -/
def hasKey (es : List (String × PyVal)) (k : String) : Bool :=
  (es.lookup k).isSome

/-- `prop.get(k, dflt)` on an arbitrary value: raises `AttributeError` unless
the receiver is a dict (Python strings/lists/ints have no `.get`). -/
def pyGet (v : PyVal) (k : String) (dflt : PyVal) : Except String PyVal :=
  match v with
  | .dict es => .ok (getD es k dflt)
  | _ => .error "AttributeError: object has no attribute get"

/-- Fuel-driven decimal rendering: the fuel only bounds the recursion depth
and is irrelevant once it exceeds the argument (`natDigitsF_fuel`). -/
def natDigitsF : Nat → Nat → List Char
  | 0, _ => []
  | f + 1, n =>
    if n < 10 then [Char.ofNat (48 + n)]
    else natDigitsF f (n / 10) ++ [Char.ofNat (48 + n % 10)]

/-- Decimal digits of a natural number, most significant first
(`"0"` for zero), as characters. -/
def natDigits (n : Nat) : List Char := natDigitsF (n + 1) n

/-- `str(n)` / `repr(n)` for an embedded integer. -/
def intStr (n : Int) : String :=
  if n < 0 then ⟨'-' :: natDigits n.natAbs⟩ else ⟨natDigits n.natAbs⟩

mutual

/-- `repr` of an embedded value, used by `str()` on containers. -/
def pyRepr : PyVal → String
  | .none => "None"
  | .bool b => if b then "True" else "False"
  | .int n => intStr n
  | .str s => "'" ++ s ++ "'"
  | .list xs => "[" ++ pyReprItems xs ++ "]"
  | .dict es => "\x7b" ++ pyReprPairs es ++ "\x7d"

/-- Comma-joined `repr`s of list elements. -/
def pyReprItems : List PyVal → String
  | [] => ""
  | [x] => pyRepr x
  | x :: y :: xs => pyRepr x ++ ", " ++ pyReprItems (y :: xs)

/-- Comma-joined `repr`s of dict entries. -/
def pyReprPairs : List (String × PyVal) → String
  | [] => ""
  | [(k, v)] => "'" ++ k ++ "': " ++ pyRepr v
  | (k, v) :: e :: es => "'" ++ k ++ "': " ++ pyRepr v ++ ", " ++ pyReprPairs (e :: es)

end

/-- `str(v)` for an embedded value. -/
def pyStr : PyVal → String
  | .none => "None"
  | .bool b => if b then "True" else "False"
  | .int n => intStr n
  | .str s => s
  | .list xs => pyRepr (.list xs)
  | .dict es => pyRepr (.dict es)

/-- A wall-clock instant as consumed by `datetime.now().strftime`. -/
structure DT where
  year : Nat
  month : Nat
  day : Nat
  hour : Nat
  minute : Nat
  second : Nat
deriving Repr, DecidableEq

/-- The instants representable by the source's timestamp format: a four-digit
year and in-range calendar/clock fields. -/
def DT.Valid (t : DT) : Prop :=
  t.year < 10000 ∧ 1 ≤ t.month ∧ t.month ≤ 12 ∧ 1 ≤ t.day ∧ t.day ≤ 31 ∧
  t.hour < 24 ∧ t.minute < 60 ∧ t.second < 60

instance (t : DT) : Decidable t.Valid := by unfold DT.Valid; infer_instance

/-- The `w` least-significant decimal digits of `n`, zero-padded: the
behaviour of `strftime`'s `%Y`/`%m`/`%d`/`%H`/`%M`/`%S` on in-range fields. -/
def padDigits : Nat → Nat → List Char
  | 0, _ => []
  | w + 1, n => padDigits w (n / 10) ++ [Char.ofNat (48 + n % 10)]

/-- `datetime.now().strftime('%Y%m%d_%H%M%S')`. -/
def fmtTimestamp (t : DT) : List Char :=
  padDigits 4 t.year ++ padDigits 2 t.month ++ padDigits 2 t.day ++ '_' ::
  (padDigits 2 t.hour ++ padDigits 2 t.minute ++ padDigits 2 t.second)

/-- `datetime.now().strftime("%Y-%m-%d %H:%M:%S")` (summary Export Date). -/
def fmtDateTime (t : DT) : String :=
  ⟨padDigits 4 t.year ++ '-' :: (padDigits 2 t.month ++ '-' ::
   (padDigits 2 t.day ++ ' ' :: (padDigits 2 t.hour ++ ':' ::
   (padDigits 2 t.minute ++ ':' :: padDigits 2 t.second))))⟩

/-- `search_id or 'export'`: Python `or` substitutes the literal `export`
for a missing (or empty, hence falsy) identifier. -/
def orExport : Option String → String
  | Option.none => "export"
  | some s => if s = "" then "export" else s

/-- `f"{stem}{search_id or 'export'}_{timestamp}{ext}"`, the filename
pattern shared by all four exporters. -/
def mkFilename (stem : String) (sid : Option String) (t : DT) (ext : String) : String :=
  ⟨stem.data ++ (orExport sid).data ++ '_' :: (fmtTimestamp t ++ ext.data)⟩

/-- `str(n)` for a natural count (e.g. `len(search_results)`). -/
def natStr (n : Nat) : String := ⟨natDigits n⟩

/-- Effectful map over a list in the `Except String` monad (the loop shape
of every `for` accumulation in the source: the first raise aborts). -/
def mapE {α β : Type} (f : α → Except String β) : List α → Except String (List β)
  | [] => .ok []
  | a :: l => do
    let b ← f a
    let bs ← mapE f l
    pure (b :: bs)

/-- The display default `"N/A"`. -/
def naV : PyVal := .str "N/A"

/-- `", ".join(v)`: joins a list of strings (`TypeError` on a non-string
element), the characters of a string, or the keys of a dict; raises
`TypeError` on non-iterables. -/
def pyJoinComma : PyVal → Except String String
  | .str s => .ok (String.intercalate ", " (s.data.map fun c => ⟨[c]⟩))
  | .list xs => do
      let ss ← mapE (fun x => match x with
        | .str s => Except.ok s
        | _ => Except.error "TypeError: sequence item: expected str instance") xs
      .ok (String.intercalate ", " ss)
  | .dict es => .ok (String.intercalate ", " (es.map Prod.fst))
  | _ => .error "TypeError: can only join an iterable"

/-- `"Yes" if v else "No"`. -/
def yesNo (v : PyVal) : PyVal := .str (if truthy v then "Yes" else "No")

/-- The 16 always-present columns of a tabular row (source lines 51–68). -/
def csvBase (es : List (String × PyVal)) : List (String × PyVal) :=
  [("Address", getD es "formattedAddress" naV),
   ("City", getD es "city" naV),
   ("State", getD es "state" naV),
   ("ZIP Code", getD es "zipCode" naV),
   ("Property Type", getD es "propertyType" naV),
   ("Bedrooms", getD es "bedrooms" naV),
   ("Bathrooms", getD es "bathrooms" naV),
   ("Square Footage", getD es "squareFootage" naV),
   ("Lot Size", getD es "lotSize" naV),
   ("Year Built", getD es "yearBuilt" naV),
   ("Last Sale Price", getD es "lastSalePrice" naV),
   ("Last Sale Date", getD es "lastSaleDate" naV),
   ("Owner Occupied", yesNo (getD es "ownerOccupied" .none)),
   ("Assessor ID", getD es "assessorID" naV),
   ("County", getD es "county" naV),
   ("Zoning", getD es "zoning" naV)]

/-- `", ".join(names) if names else "N/A"` (source line 74). -/
def ownerNamesVal (oes : List (String × PyVal)) : Except String PyVal :=
  if truthy (getD oes "names" (.list [])) then
    (pyJoinComma (getD oes "names" (.list []))).map PyVal.str
  else .ok naV

/-- The two owner columns (source lines 71–78): populated from a truthy
`owner` mapping, defaulted otherwise. -/
def csvOwnerCols (es : List (String × PyVal)) : Except String (List (String × PyVal)) :=
  if hasKey es "owner" && truthy (getD es "owner" .none) then
    match getD es "owner" .none with
    | .dict oes =>
        (ownerNamesVal oes).bind fun ownerNames =>
          .ok [("Owner Names", ownerNames), ("Owner Type", getD oes "type" naV)]
    | _ => .error "AttributeError: object has no attribute get"
  else
    .ok [("Owner Names", naV), ("Owner Type", naV)]

/-- The six feature columns (source lines 81–88): added only when
`features` is present and truthy — otherwise the row dict has no feature
keys at all. -/
def csvFeatCols (es : List (String × PyVal)) : Except String (List (String × PyVal)) :=
  if hasKey es "features" && truthy (getD es "features" .none) then
    match getD es "features" .none with
    | .dict fes =>
        pure [("Architecture Type", getD fes "architectureType" naV),
              ("Exterior Type", getD fes "exteriorType" naV),
              ("Heating", yesNo (getD fes "heating" .none)),
              ("Cooling", yesNo (getD fes "cooling" .none)),
              ("Garage", yesNo (getD fes "garage" .none)),
              ("Garage Spaces", getD fes "garageSpaces" naV)]
    | _ => throw "AttributeError: object has no attribute get"
  else pure []

/-- The per-record normalization performed inside `export_to_csv`·s loop
(source lines 51–90). -/
def csvRow (prop : PyVal) : Except String (List (String × PyVal)) :=
  match prop with
  | .dict es => do
    let ownerCols ← csvOwnerCols es
    let featureCols ← csvFeatCols es
    pure (csvBase es ++ ownerCols ++ featureCols)
  | _ => .error "AttributeError: object has no attribute get"

/-- One step of pandas' column resolution: append the keys of the next row
dict that have not been seen yet, in their order within the row. -/
def unionStep (acc : List String) (row : List (String × PyVal)) : List String :=
  acc ++ ((row.map Prod.fst).filter fun k => !acc.contains k)

/-- `pandas.DataFrame(list_of_dicts)` column resolution: the union of the
row dicts' keys in order of first appearance. -/
def unionKeys (rows : List (List (String × PyVal))) : List String :=
  rows.foldl unionStep []

/-- One materialized table row: a cell per column, `Option.none` for a
column the row dict does not mention (pandas `NaN`, rendered empty). -/
def rowCells (header : List String) (row : List (String × PyVal)) : List (Option PyVal) :=
  header.map fun k => row.lookup k

/-- The tabular artifact: pandas' `to_csv(index=False)` output, modelled as
the header row plus the cell matrix, and the generated filename. -/
structure CsvOut where
  header : List String
  rows : List (List (Option PyVal))
  filename : String
deriving Repr

/-- The body of `export_to_csv`'s `try` block. -/
def exportToCsvCore (results : List PyVal) (sid : Option String) (now : DT) :
    Except String CsvOut := do
  if results.isEmpty then throw "No search results to export"
  let rowDicts ← mapE csvRow results
  let header := unionKeys rowDicts
  pure ⟨header, rowDicts.map (rowCells header), mkFilename "property_search_" sid now ".csv"⟩

/-- `export_to_csv`: the whole body runs under a single `try`, whose handler
re-raises every exception wrapped as `"CSV export failed: ..."`. -/
def exportToCsv (results : List PyVal) (sid : Option String) (now : DT) :
    Except String CsvOut :=
  match exportToCsvCore results sid now with
  | .ok o => .ok o
  | .error e => .error ("CSV export failed: " ++ e)

/-- One sheet of the workbook artifact (header plus cell matrix). -/
structure Sheet where
  header : List String
  rows : List (List (Option PyVal))
deriving Repr

/-- Builds a sheet from row dicts the way `DataFrame(...).to_excel` does. -/
def mkSheet (rows : List (List (String × PyVal))) : Sheet :=
  ⟨unionKeys rows, rows.map (rowCells (unionKeys rows))⟩

/-- The workbook artifact: named sheets in write order, plus filename. -/
structure ExcelOut where
  sheets : List (String × Sheet)
  filename : String
deriving Repr

/-- One row of the Excel `Properties` sheet (source lines 127–143): only 15
columns — no Assessor ID and no owner columns, unlike the CSV variant. -/
def excelRow (prop : PyVal) : Except String (List (String × PyVal)) :=
  match prop with
  | .dict es => .ok [
      ("Address", getD es "formattedAddress" naV),
      ("City", getD es "city" naV),
      ("State", getD es "state" naV),
      ("ZIP Code", getD es "zipCode" naV),
      ("Property Type", getD es "propertyType" naV),
      ("Bedrooms", getD es "bedrooms" naV),
      ("Bathrooms", getD es "bathrooms" naV),
      ("Square Footage", getD es "squareFootage" naV),
      ("Lot Size", getD es "lotSize" naV),
      ("Year Built", getD es "yearBuilt" naV),
      ("Last Sale Price", getD es "lastSalePrice" naV),
      ("Last Sale Date", getD es "lastSaleDate" naV),
      ("Owner Occupied", yesNo (getD es "ownerOccupied" .none)),
      ("County", getD es "county" naV),
      ("Zoning", getD es "zoning" naV)]
  | _ => .error "AttributeError: object has no attribute get"

/-- One iteration of the `Tax Assessments` accumulation loop (source lines
151–161): the row dicts contributed by record `p.2` at 0-based position
`p.1`, for records whose `taxAssessments` is present and truthy. -/
def taxAssessRec (p : Nat × PyVal) : Except String (List (List (String × PyVal))) :=
  match p.2 with
  | .dict es =>
    if hasKey es "taxAssessments" && truthy (getD es "taxAssessments" .none) then
      match getD es "taxAssessments" .none with
      | .dict tes =>
        mapE (fun yd =>
          match yd.2 with
          | .dict des => Except.ok [
              ("Property Index", PyVal.int (p.1 + 1)),
              ("Address", getD es "formattedAddress" naV),
              ("Year", PyVal.str yd.1),
              ("Total Value", getD des "value" naV),
              ("Land Value", getD des "land" naV),
              ("Improvements", getD des "improvements" naV)]
          | _ => Except.error "AttributeError: object has no attribute get") tes
      | _ => Except.error "AttributeError: object has no attribute items"
    else pure []
  | _ => Except.error "TypeError: argument of type is not iterable"

/-- The `Tax Assessments` accumulation loop (source lines 150–161). -/
def taxAssessRows (results : List PyVal) :
    Except String (List (List (String × PyVal))) :=
  mapE taxAssessRec results.enum >>= fun rowss => .ok rowss.flatten

/-- One iteration of the `Property Taxes` accumulation loop (source lines
169–177). -/
def propertyTaxRec (p : Nat × PyVal) : Except String (List (List (String × PyVal))) :=
  match p.2 with
  | .dict es =>
    if hasKey es "propertyTaxes" && truthy (getD es "propertyTaxes" .none) then
      match getD es "propertyTaxes" .none with
      | .dict tes =>
        mapE (fun yd =>
          match yd.2 with
          | .dict des => Except.ok [
              ("Property Index", PyVal.int (p.1 + 1)),
              ("Address", getD es "formattedAddress" naV),
              ("Year", PyVal.str yd.1),
              ("Total Tax", getD des "total" naV)]
          | _ => Except.error "AttributeError: object has no attribute get") tes
      | _ => Except.error "AttributeError: object has no attribute items"
    else pure []
  | _ => Except.error "TypeError: argument of type is not iterable"

/-- The `Property Taxes` accumulation loop (source lines 168–177). -/
def propertyTaxRows (results : List PyVal) :
    Except String (List (List (String × PyVal))) :=
  mapE propertyTaxRec results.enum >>= fun rowss => .ok rowss.flatten

/-- The `Search Info` sheet rows (source lines 184–190): present only when
the metadata value is truthy. -/
def searchInfoRows (meta : PyVal) :
    Except String (Option (List (List (String × PyVal)))) :=
  if truthy meta then
    match meta with
    | .dict mes => .ok (some (mes.map fun kv =>
        [("Field", PyVal.str kv.1), ("Value", PyVal.str (pyStr kv.2))]))
    | _ => .error "AttributeError: object has no attribute items"
  else .ok Option.none

/-- The body of `export_to_excel`'s `try` block: conditional sheets are
appended only when their row accumulation is non-empty. -/
def exportToExcelCore (results : List PyVal) (meta : PyVal) (sid : Option String)
    (now : DT) : Except String ExcelOut :=
  if results.isEmpty then .error "No search results to export"
  else
    mapE excelRow results >>= fun mainRows =>
    taxAssessRows results >>= fun taxRows =>
    propertyTaxRows results >>= fun ptaxRows =>
    searchInfoRows meta >>= fun metaRows =>
    .ok ⟨[("Properties", mkSheet mainRows)]
      ++ (if taxRows.isEmpty then [] else [("Tax Assessments", mkSheet taxRows)])
      ++ (if ptaxRows.isEmpty then [] else [("Property Taxes", mkSheet ptaxRows)])
      ++ (match metaRows with
          | some rs => [("Search Info", mkSheet rs)]
          | Option.none => []),
      mkFilename "property_search_" sid now ".xlsx"⟩

/-- `export_to_excel`, with its exception wrapper. -/
def exportToExcel (results : List PyVal) (meta : PyVal) (sid : Option String)
    (now : DT) : Except String ExcelOut :=
  match exportToExcelCore results meta sid now with
  | .ok o => .ok o
  | .error e => .error ("Excel export failed: " ++ e)

/-- A flowable of the generated report document: a paragraph (title/heading),
a label/value table, or a vertical spacer (the styling on tables is pure
presentation and carries no data). -/
inductive PdfElem where
  | para (s : String)
  | table (rows : List (List PyVal))
  | spacer (w h : Nat)
deriving Repr

/-- Python `format(v, ',')` (the `f"{v:,}"` spec): thousands-grouped
integers (bools being ints format as `1`/`0`); every other type raises. -/
def chunk3 : List Char → List (List Char)
  | [] => []
  | [a] => [[a]]
  | [a, b] => [[a, b]]
  | a :: b :: c :: rest => [a, b, c] :: chunk3 rest

/-- Decimal digits of `n` with a comma every three digits from the right. -/
def commaGroupNat (n : Nat) : List Char :=
  (List.intercalate [','] (chunk3 (natDigits n).reverse)).reverse

/-- `format(i, ',')` for an integer. -/
def commaGroup (i : Int) : String :=
  if i < 0 then ⟨'-' :: commaGroupNat i.natAbs⟩ else ⟨commaGroupNat i.natAbs⟩

/-- `f"{v:,}"` for an arbitrary embedded value: ints get thousands grouping,
bools (int subclasses) format as `1`/`0`, everything else raises. -/
def fmtComma : PyVal → Except String String
  | .int n => .ok (commaGroup n)
  | .bool b => .ok (if b then "1" else "0")
  | _ => .error "ValueError: cannot specify comma with given type"

/-- `str.title()` (ASCII behaviour): the first alphabetic character of each
run is uppercased, the rest lowercased. -/
def titleAux : List Char → Bool → List Char
  | [], _ => []
  | c :: cs, start =>
    if c.isAlpha then (if start then c.toUpper else c.toLower) :: titleAux cs false
    else c :: titleAux cs true

/-- `s.replace("_", " ").title()` as applied to metadata keys. -/
def pyTitle (s : String) : String := ⟨titleAux s.data true⟩

/-- `f"{prop.get('squareFootage', 'N/A'):,}" if prop.get('squareFootage')
else "N/A"` (source line 285): a falsy value — absent, `None`, `0` — renders
`"N/A"`; a truthy value goes through the comma format (which raises on
non-numeric types). -/
def sqftCell (es : List (String × PyVal)) : Except String String :=
  if truthy (getD es "squareFootage" .none) then
    fmtComma (getD es "squareFootage" naV)
  else .ok "N/A"

/-- `f"${prop.get('lastSalePrice', 0):,}" if prop.get('lastSalePrice') else
"N/A"` (source line 287). -/
def priceCell (es : List (String × PyVal)) : Except String String :=
  if truthy (getD es "lastSalePrice" .none) then
    (fmtComma (getD es "lastSalePrice" (.int 0))).map (fun s => "$" ++ s)
  else .ok "N/A"

/-- The 8-row label/value table built for one property inside
`export_to_pdf_report` (source lines 280–289). -/
def pdfPropRows (prop : PyVal) : Except String (List (List PyVal)) :=
  match prop with
  | .dict es =>
    sqftCell es >>= fun sqft =>
    priceCell es >>= fun price =>
    .ok [
      [PyVal.str "Address", getD es "formattedAddress" naV],
      [PyVal.str "Property Type", getD es "propertyType" naV],
      [PyVal.str "Bedrooms", PyVal.str (pyStr (getD es "bedrooms" naV))],
      [PyVal.str "Bathrooms", PyVal.str (pyStr (getD es "bathrooms" naV))],
      [PyVal.str "Square Footage", PyVal.str sqft],
      [PyVal.str "Year Built", PyVal.str (pyStr (getD es "yearBuilt" naV))],
      [PyVal.str "Last Sale Price", PyVal.str price],
      [PyVal.str "Owner Occupied", yesNo (getD es "ownerOccupied" .none)]]
  | _ => .error "AttributeError: object has no attribute get"

/-- One `Property {i}` section of the report (heading, table, trailing
spacers): a larger spacer follows every second property except the last. -/
def propSection (n total : Nat) (prop : PyVal) : Except String (List PdfElem) := do
  let rows ← pdfPropRows prop
  pure ([PdfElem.para ("Property " ++ natStr n), PdfElem.table rows, PdfElem.spacer 1 15]
    ++ (if n % 2 == 0 && n < total then [PdfElem.spacer 1 50] else []))

/-- The body of `export_to_pdf_report`'s `try` block: title, optional
metadata table (skipping the `results` key), the count line, then one
section per property. -/
def exportToPdfCore (results : List PyVal) (meta : PyVal) (sid : Option String)
    (now : DT) : Except String (List PdfElem × String) := do
  if results.isEmpty then throw "No search results to export"
  let metaElems ←
    if truthy meta then
      match meta with
      | .dict mes =>
        let rows := (mes.filter fun kv => kv.1 ≠ "results").map fun kv =>
          [PyVal.str (pyTitle (kv.1.replace "_" " ")), PyVal.str (pyStr kv.2)]
        pure ([PdfElem.para "Search Information"]
          ++ (if rows.isEmpty then [] else [PdfElem.table rows, PdfElem.spacer 1 20]))
      | _ => throw "AttributeError: object has no attribute items"
    else pure ([] : List PdfElem)
  let sections ← mapE (fun p => propSection (p.1 + 1) results.length p.2) results.enum
  pure ([PdfElem.para "Property Search Report"] ++ metaElems
    ++ [PdfElem.para ("Properties Found: " ++ natStr results.length)]
    ++ sections.flatten,
    mkFilename "property_report_" sid now ".pdf")

/-- `export_to_pdf_report`, with its exception wrapper. -/
def exportToPdfReport (results : List PyVal) (meta : PyVal) (sid : Option String)
    (now : DT) : Except String (List PdfElem × String) :=
  match exportToPdfCore results meta sid now with
  | .ok o => .ok o
  | .error e => .error ("PDF export failed: " ++ e)

/-- Python `k in v` (`__contains__`): key membership for dicts, substring
for strings, element equality for lists; `TypeError` otherwise. -/
def pyIn (needle : String) (hay : PyVal) : Except String Bool :=
  match hay with
  | .dict es => .ok (hasKey es needle)
  | .str s => .ok (decide (needle.data <:+: s.data))
  | .list xs => .ok (xs.any fun x => match x with
      | .str t => t == needle
      | _ => false)
  | _ => .error "TypeError: argument of type is not iterable"

/-- Python `v[k]` for a string key: dict lookup; `TypeError` on any other
receiver (string/list subscripts must be integers). -/
def pyIndex (hay : PyVal) (k : String) : Except String PyVal :=
  match hay with
  | .dict es =>
    match es.lookup k with
    | some v => .ok v
    | Option.none => .error "KeyError"
  | _ => .error "TypeError: indices must be integers"

/-- The field extraction of `get_export_summary`'s `try` block (source lines
342–356): Total Properties / Search Address / Search Date, preferring the
nested `property_data` shape over the flat `results` shape. -/
def summaryFields (x : PyVal) : Except String (Nat × Option PyVal × Option PyVal) :=
  match x with
  | .dict es =>
    if hasKey es "property_data" then do
      let pd := getD es "property_data" .none
      let hasAddr ← pyIn "address" pd
      let addr ← if hasAddr then (pyIndex pd "address").map some else pure Option.none
      let hasTs ← pyIn "search_timestamp" pd
      let ts ← if hasTs then (pyIndex pd "search_timestamp").map some else pure Option.none
      let hasRes ← pyIn "results" pd
      let total ←
        if hasRes then do
          let rv ← pyIndex pd "results"
          match rv with
          | .list rs => pure rs.length
          | _ => pure 0
        else pure 0
      pure (total, addr, ts)
    else
      match es.lookup "results" with
      | some (.list rs) => pure (rs.length, Option.none, Option.none)
      | _ => pure (0, (Option.none : Option PyVal), (Option.none : Option PyVal))
  | _ => pure (0, (Option.none : Option PyVal), (Option.none : Option PyVal))

/-- The body of `get_export_summary`'s `try` block: the base summary dict
with its fields updated in place (insertion order is unchanged because all
four keys pre-exist in the base dict). -/
def summaryCore (x : PyVal) (now : DT) : Except String (List (String × PyVal)) :=
  match summaryFields x with
  | .ok tas => .ok
      [("Export Date", PyVal.str (fmtDateTime now)),
       ("Total Properties", PyVal.int tas.1),
       ("Search Address", tas.2.1.getD naV),
       ("Search Date", tas.2.2.getD naV)]
  | .error e => .error e

/-- `get_export_summary`: any exception from the derivation collapses to the
degraded `{Export Date, Error}` mapping; the function itself never raises. -/
def getExportSummary (x : PyVal) (now : DT) : List (String × PyVal) :=
  match summaryCore x now with
  | .ok s => s
  | .error e => [("Export Date", PyVal.str (fmtDateTime now)),
                 ("Error", PyVal.str ("Could not generate summary: " ++ e))]

/-! ### JSON serialization (`json.dumps(search_data, indent=2, default=str)`)
and a model of `json.loads`, used to state the round-trip property. -/

/-- Lowercase hexadecimal digit. -/
def hexDigit (n : Nat) : Char := Char.ofNat (if n < 10 then 48 + n else 87 + n)

/-- Four-digit lowercase hex rendering used by `\uXXXX` escapes. -/
def hex4 (n : Nat) : List Char :=
  [hexDigit (n / 4096 % 16), hexDigit (n / 256 % 16), hexDigit (n / 16 % 16), hexDigit (n % 16)]

/-- The `ensure_ascii` escaping of one character: short escapes for the JSON
control shorthands, `\uXXXX` for other control or non-ASCII characters
(surrogate pairs above the BMP), the character itself for printable ASCII. -/
def escChar (c : Char) : List Char :=
  if c = '"' then ['\\', '"']
  else if c = '\\' then ['\\', '\\']
  else if c = '\n' then ['\\', 'n']
  else if c = '\r' then ['\\', 'r']
  else if c = '\t' then ['\\', 't']
  else if c.toNat = 8 then ['\\', 'b']
  else if c.toNat = 12 then ['\\', 'f']
  else if c.toNat < 32 then '\\' :: 'u' :: hex4 c.toNat
  else if c.toNat ≤ 126 then [c]
  else if c.toNat ≤ 65535 then '\\' :: 'u' :: hex4 c.toNat
  else
    '\\' :: 'u' :: hex4 (55296 + (c.toNat - 65536) / 1024) ++
    '\\' :: 'u' :: hex4 (56320 + (c.toNat - 65536) % 1024)

/-- Escaped rendering of a string body. -/
def escBody : List Char → List Char
  | [] => []
  | c :: cs => escChar c ++ escBody cs

/-- A JSON string literal. -/
def escString (s : String) : List Char := '"' :: (escBody s.data ++ ['"'])

/-- The indentation prefix at nesting level `lvl` (`indent=2`). -/
def ind (lvl : Nat) : List Char := List.replicate (2 * lvl) ' '

mutual

/-- `json.dumps(v, indent=2)` at nesting level `lvl`: scalars render inline;
non-empty containers spread one item per line, indented two spaces per
level; empty containers render inline. -/
def renderV (lvl : Nat) : PyVal → List Char
  | .none => 'n' :: 'u' :: 'l' :: 'l' :: []
  | .bool b => if b then 't' :: 'r' :: 'u' :: 'e' :: [] else 'f' :: 'a' :: 'l' :: 's' :: 'e' :: []
  | .int n => (intStr n).data
  | .str s => escString s
  | .list [] => '[' :: ']' :: []
  | .list (x :: xs) =>
      '[' :: '\n' :: (ind (lvl + 1) ++ renderV (lvl + 1) x ++ renderItems (lvl + 1) xs
        ++ '\n' :: (ind lvl ++ [']']))
  | .dict [] => '\x7b' :: '\x7d' :: []
  | .dict (e :: es) =>
      '\x7b' :: '\n' :: (ind (lvl + 1) ++ renderPair (lvl + 1) e ++ renderPairs (lvl + 1) es
        ++ '\n' :: (ind lvl ++ ['\x7d']))

/-- The remaining items of a non-empty JSON array, each preceded by
`",\n" ++ indentation`. -/
def renderItems (lvl : Nat) : List PyVal → List Char
  | [] => []
  | x :: xs => ',' :: '\n' :: (ind lvl ++ renderV lvl x ++ renderItems lvl xs)

/-- One `"key": value` member. -/
def renderPair (lvl : Nat) (e : String × PyVal) : List Char :=
  escString e.1 ++ ':' :: ' ' :: renderV lvl e.2

/-- The remaining members of a non-empty JSON object. -/
def renderPairs (lvl : Nat) : List (String × PyVal) → List Char
  | [] => []
  | e :: es => ',' :: '\n' :: (ind lvl ++ renderPair lvl e ++ renderPairs lvl es)

end

/-- The serialized payload of `export_to_json`. -/
def dumps (x : PyVal) : String := ⟨renderV 0 x⟩

/-- `export_to_json`: pretty-printed payload plus generated filename. The
embedded value type has no date objects, so the `default=str` fallback never
fires and serialization always succeeds. -/
def exportToJson (searchData : PyVal) (sid : Option String) (now : DT) :
    Except String (String × String) :=
  .ok (dumps searchData, mkFilename "property_search_" sid now ".json")

/-- JSON whitespace. -/
def isWs (c : Char) : Bool := c = ' ' || c = '\t' || c = '\n' || c = '\r'

/-- Skip leading JSON whitespace. -/
def skipWs : List Char → List Char
  | [] => []
  | c :: cs => if isWs c then skipWs cs else c :: cs

/-- ASCII decimal digit test. -/
def isDigitCh (c : Char) : Bool := 48 ≤ c.toNat && c.toNat ≤ 57

/-- Longest decimal-digit prefix and the remainder. -/
def takeDigits : List Char → (List Char × List Char)
  | [] => ([], [])
  | c :: cs =>
    if isDigitCh c then
      let p := takeDigits cs
      (c :: p.1, p.2)
    else ([], c :: cs)

/-- Numeric value of a decimal digit string. -/
def digitsVal (ds : List Char) : Nat := ds.foldl (fun a c => 10 * a + (c.toNat - 48)) 0

/-- Value of one hex digit (both cases accepted, as in `json.loads`). -/
def hexVal (c : Char) : Option Nat :=
  if 48 ≤ c.toNat && c.toNat ≤ 57 then some (c.toNat - 48)
  else if 97 ≤ c.toNat && c.toNat ≤ 102 then some (c.toNat - 87)
  else if 65 ≤ c.toNat && c.toNat ≤ 70 then some (c.toNat - 55)
  else Option.none

/-- Value of a four-hex-digit escape. -/
def hex4Val (a b c d : Char) : Option Nat := do
  let va ← hexVal a
  let vb ← hexVal b
  let vc ← hexVal c
  let vd ← hexVal d
  pure (va * 4096 + vb * 256 + vc * 16 + vd)

/-- The shorthand escapes `json.loads` accepts after a backslash. -/
def escTable (e : Char) : Option Char :=
  if e = '"' then some '"'
  else if e = '\\' then some '\\'
  else if e = '/' then some '/'
  else if e = 'b' then some (Char.ofNat 8)
  else if e = 'f' then some (Char.ofNat 12)
  else if e = 'n' then some '\n'
  else if e = 'r' then some '\r'
  else if e = 't' then some '\t'
  else Option.none

mutual

/-- `json.loads` string scanning after the opening quote: literal characters
up to the closing quote, shorthand escapes, `\uXXXX` escapes with surrogate
pairs recombined. (Lone surrogates are rejected, since the embedding's
strings hold only Unicode scalar values, which is all `dumps` emits.) -/
def parseStrBody : List Char → Option (List Char × List Char)
  | [] => Option.none
  | c :: rest =>
    if c = '"' then some ([], rest)
    else if c = '\\' then parseEsc rest
    else if c.toNat < 32 then Option.none
    else (parseStrBody rest).map fun p => (c :: p.1, p.2)

/-- The escape forms `json.loads` accepts after a backslash: `\uXXXX` (with
surrogate handling) or a shorthand from `escTable`. -/
def parseEsc : List Char → Option (List Char × List Char)
  | 'u' :: a :: b :: c2 :: d :: rest2 =>
    (hex4Val a b c2 d).bind fun v =>
      if 55296 ≤ v ∧ v ≤ 56319 then parseLowSur v rest2
      else if 56320 ≤ v ∧ v ≤ 57343 then Option.none
      else (parseStrBody rest2).map fun p => (Char.ofNat v :: p.1, p.2)
  | e :: rest2 =>
    (escTable e).bind fun ec =>
      (parseStrBody rest2).map fun p => (ec :: p.1, p.2)
  | [] => Option.none

/-- After a high surrogate `\uXXXX`, `json.loads` requires an immediately
following low-surrogate escape and recombines the pair. -/
def parseLowSur (v : Nat) : List Char → Option (List Char × List Char)
  | '\\' :: 'u' :: a2 :: b2 :: c3 :: d2 :: rest3 =>
    (hex4Val a2 b2 c3 d2).bind fun w =>
      if 56320 ≤ w ∧ w ≤ 57343 then
        (parseStrBody rest3).map fun p =>
          (Char.ofNat (65536 + (v - 55296) * 1024 + (w - 56320)) :: p.1, p.2)
      else Option.none
  | _ => Option.none

end

/-- The character class a decimal literal must not be followed by
(it would otherwise continue as a longer number or a float). -/
def numStop : List Char → Bool
  | [] => true
  | c :: _ => !(isDigitCh c || c = '.' || c = 'e' || c = 'E')

/-- `rest` begins with character `c`. -/
def headIs : List Char → Char → Bool
  | [], _ => false
  | c :: _, d => c == d

/-- After an integer literal, `json.loads` would go on to parse a float if
a fraction or exponent follows; floats are outside the embedding, so such a
continuation fails instead. -/
def numOk : List Char → Bool
  | [] => true
  | c :: _ => !(c = '.' || c = 'e' || c = 'E')

/-- Consume an expected literal prefix (used for the `null`/`true`/`false`
keywords). -/
def dropPrefixQ : List Char → List Char → Option (List Char)
  | [], s => some s
  | k :: ks, c :: s => if c = k then dropPrefixQ ks s else Option.none
  | _ :: _, [] => Option.none

mutual

/-- Fuel-driven model of `json.loads` value scanning. The fuel only bounds
recursion depth and is irrelevant once it exceeds the structural size of
the value being read. -/
def parseVal : Nat → List Char → Option (PyVal × List Char)
  | 0, _ => Option.none
  | f + 1, s =>
    match s with
    | [] => Option.none
    | c :: r =>
      if isDigitCh c then
        if numOk (takeDigits r).2 then
          some (.int (digitsVal (c :: (takeDigits r).1) : Int), (takeDigits r).2)
        else Option.none
      else if c = '-' then
        if (takeDigits r).1.isEmpty then Option.none
        else if numOk (takeDigits r).2 then
          some (.int (-(digitsVal (takeDigits r).1 : Int)), (takeDigits r).2)
        else Option.none
      else if c = '"' then
        (parseStrBody r).map fun p => (.str ⟨p.1⟩, p.2)
      else if c = '[' then
        if headIs (skipWs r) ']' then some (.list [], (skipWs r).tail)
        else (parseElems f (skipWs r)).map fun p => (.list p.1, p.2)
      else if c = '\x7b' then
        if headIs (skipWs r) '\x7d' then some (.dict [], (skipWs r).tail)
        else (parseMembers f (skipWs r)).map fun p => (.dict p.1, p.2)
      else if c = 'n' then (dropPrefixQ ['u', 'l', 'l'] r).map fun r2 => (.none, r2)
      else if c = 't' then (dropPrefixQ ['r', 'u', 'e'] r).map fun r2 => (.bool true, r2)
      else if c = 'f' then (dropPrefixQ ['a', 'l', 's', 'e'] r).map fun r2 => (.bool false, r2)
      else Option.none

/-- Array items: value, then `,` to continue or `]` to finish. -/
def parseElems : Nat → List Char → Option (List PyVal × List Char)
  | 0, _ => Option.none
  | f + 1, s =>
    (parseVal f (skipWs s)).bind fun p =>
      if headIs (skipWs p.2) ']' then some ([p.1], (skipWs p.2).tail)
      else if headIs (skipWs p.2) ',' then
        (parseElems f (skipWs p.2).tail).map fun q => (p.1 :: q.1, q.2)
      else Option.none

/-- Object members: `"key": value`, then `,` to continue or `}` to finish. -/
def parseMembers : Nat → List Char → Option (List (String × PyVal) × List Char)
  | 0, _ => Option.none
  | f + 1, s =>
    if headIs (skipWs s) '"' then
      (parseStrBody (skipWs s).tail).bind fun pk =>
        if headIs (skipWs pk.2) ':' then
          (parseVal f (skipWs ((skipWs pk.2).tail))).bind fun pv =>
            if headIs (skipWs pv.2) '\x7d' then
              some ([(⟨pk.1⟩, pv.1)], (skipWs pv.2).tail)
            else if headIs (skipWs pv.2) ',' then
              (parseMembers f (skipWs pv.2).tail).map fun q =>
                ((⟨pk.1⟩, pv.1) :: q.1, q.2)
            else Option.none
        else Option.none
    else Option.none

end

/-- `json.loads` on a whole document: one value surrounded by whitespace. -/
def parseJson (s : String) : Option PyVal :=
  match parseVal (s.data.length + 1) (skipWs s.data) with
  | some (v, rest) => if (skipWs rest).isEmpty then some v else Option.none
  | Option.none => Option.none

mutual

/-- Structure size of a value, a lower bound for the parsing fuel. -/
def sizeV : PyVal → Nat
  | .list xs => sizeL xs + 1
  | .dict es => sizeD es + 1
  | _ => 1

/-- Size of array items. -/
def sizeL : List PyVal → Nat
  | [] => 1
  | x :: xs => sizeV x + sizeL xs + 1

/-- Size of object members. -/
def sizeD : List (String × PyVal) → Nat
  | [] => 1
  | e :: es => sizeV e.2 + sizeD es + 1

end

mutual

/-- Keys of every nested mapping are distinct (true of every value that
originates from Python dicts, which cannot hold duplicate keys). -/
def wfKeys : PyVal → Bool
  | .list xs => wfKeysL xs
  | .dict es => (es.map Prod.fst).Nodup ∧ wfKeysD es
  | _ => true

/-- `wfKeys` over array items. -/
def wfKeysL : List PyVal → Bool
  | [] => true
  | x :: xs => wfKeys x && wfKeysL xs

/-- `wfKeys` over object members. -/
def wfKeysD : List (String × PyVal) → Bool
  | [] => true
  | e :: es => wfKeys e.2 && wfKeysD es

end

/-! ### Claim-side vocabulary: fixed column lists and pure characterizations
used to state the properties independently of the monadic export code. -/

/-- The 18 base/owner columns of the documented §4.1 order. -/
def baseCols : List String :=
  ["Address", "City", "State", "ZIP Code", "Property Type", "Bedrooms", "Bathrooms",
   "Square Footage", "Lot Size", "Year Built", "Last Sale Price", "Last Sale Date",
   "Owner Occupied", "Assessor ID", "County", "Zoning", "Owner Names", "Owner Type"]

/-- The six feature columns of the tabular variant. -/
def featCols : List String :=
  ["Architecture Type", "Exterior Type", "Heating", "Cooling", "Garage", "Garage Spaces"]

/-- All 24 documented tabular columns (through Garage Spaces). -/
def allCols : List String := baseCols ++ featCols

/-- The 15 columns the Excel `Properties` sheet actually carries. -/
def excelCols : List String :=
  ["Address", "City", "State", "ZIP Code", "Property Type", "Bedrooms", "Bathrooms",
   "Square Footage", "Lot Size", "Year Built", "Last Sale Price", "Last Sale Date",
   "Owner Occupied", "County", "Zoning"]

/-- `k in record and record[k]` as the exporters test it (false on
non-dicts, where the record would instead make the whole export raise). -/
def hasTruthyKey (k : String) : PyVal → Bool
  | .dict es => hasKey es k && truthy (getD es k .none)
  | _ => false

/-- `record.get(k, d)` seen as a total function on embedded values. -/
def vGetD (p : PyVal) (k : String) (d : PyVal) : PyVal :=
  match p with
  | .dict es => getD es k d
  | _ => d

/-- The `(year, data)` pairs an exporter iterates for key `k` of a record:
the mapping's entries when `k` is present, truthy and a mapping, nothing
otherwise. -/
def yearEntries (k : String) (p : PyVal) : List (String × PyVal) :=
  if hasTruthyKey k p then
    match vGetD p k .none with
    | .dict tes => tes
    | _ => []
  else []

/-- The documented `Tax Assessments` row for record number `i` (0-based)
and one `(year, data)` entry. -/
def specTaxRow (i : Nat) (p : PyVal) (yd : String × PyVal) : List (String × PyVal) :=
  [("Property Index", PyVal.int (i + 1)),
   ("Address", vGetD p "formattedAddress" naV),
   ("Year", PyVal.str yd.1),
   ("Total Value", vGetD yd.2 "value" naV),
   ("Land Value", vGetD yd.2 "land" naV),
   ("Improvements", vGetD yd.2 "improvements" naV)]

/-- All `Tax Assessments` rows: one per (record, year) pair, in input order. -/
def specTaxRows (results : List PyVal) : List (List (String × PyVal)) :=
  results.enum.flatMap fun p => (yearEntries "taxAssessments" p.2).map (specTaxRow p.1 p.2)

/-- The documented `Property Taxes` row for one record/year pair. -/
def specPTaxRow (i : Nat) (p : PyVal) (yd : String × PyVal) : List (String × PyVal) :=
  [("Property Index", PyVal.int (i + 1)),
   ("Address", vGetD p "formattedAddress" naV),
   ("Year", PyVal.str yd.1),
   ("Total Tax", vGetD yd.2 "total" naV)]

/-- All `Property Taxes` rows, in input order. -/
def specPTaxRows (results : List PyVal) : List (List (String × PyVal)) :=
  results.enum.flatMap fun p => (yearEntries "propertyTaxes" p.2).map (specPTaxRow p.1 p.2)

/-- The 18 display defaults a record with no optional fields produces
(`"N/A"` everywhere, `"No"` for the boolean Owner Occupied column). -/
def naCells : List (Option PyVal) :=
  [some naV, some naV, some naV, some naV, some naV, some naV, some naV, some naV,
   some naV, some naV, some naV, some naV, some (.str "No"), some naV, some naV,
   some naV, some naV, some naV]

/-- A well-formed record exercising ordinary fields. -/
def goodRec : PyVal :=
  .dict [("formattedAddress", .str "1 Main St"), ("bedrooms", .int 3)]

/-- A malformed record: `owner` is a truthy non-mapping, so
`owner.get("names", [])` raises `AttributeError` during normalization. -/
def badOwnerRec : PyVal := .dict [("owner", .int 1)]

/-- A record with no fields at all (every optional field missing). -/
def emptyRec : PyVal := .dict []

/-- A record carrying owner, assessor and feature data. -/
def fullRec : PyVal :=
  .dict [("formattedAddress", .str "1 Main St"), ("assessorID", .str "A-1"),
         ("owner", .dict [("names", .list [.str "Bob"]), ("type", .str "Individual")]),
         ("features", .dict [("architectureType", .str "Ranch"), ("garage", .bool true),
                             ("garageSpaces", .int 2)])]

/-- A fixed instant used by the concrete counterexamples. -/
def t0 : DT := ⟨2024, 3, 7, 9, 5, 2⟩

/-- A record carrying one tax-assessment year and one property-tax year. -/
def taxRec : PyVal :=
  .dict [("formattedAddress", .str "1 Main St"),
         ("taxAssessments", .dict [("2023", .dict [("value", .int 100)])]),
         ("propertyTaxes", .dict [("2023", .dict [("total", .int 12)])])]

/-! ### Shared lemmas -/

@[simp] theorem ok_bind {α β : Type} (a : α) (f : α → Except String β) :
    (Except.ok a >>= f) = f a := rfl

@[simp] theorem throw_bind {α β : Type} (e : String) (f : α → Except String β) :
    ((throw e : Except String α) >>= f) = Except.error e := rfl

@[simp] theorem throw_eq_error {α : Type} (e : String) :
    (throw e : Except String α) = Except.error e := rfl

@[simp] theorem error_bind {α β : Type} (e : String) (f : α → Except String β) :
    ((Except.error e : Except String α) >>= f) = Except.error e := rfl

theorem except_bind_ok {α β : Type} {x : Except String α} {f : α → Except String β} {b : β}
    (h : (x >>= f) = .ok b) : ∃ a, x = .ok a ∧ f a = .ok b := by
  cases x with
  | ok a => exact ⟨a, rfl, h⟩
  | error e => simp at h

theorem mapE_ok_cons {α β : Type} {f : α → Except String β} {a : α} {l : List α} {ys : List β}
    (h : mapE f (a :: l) = .ok ys) :
    ∃ b bs, f a = .ok b ∧ mapE f l = .ok bs ∧ ys = b :: bs := by
  unfold mapE at h
  cases hfa : f a with
  | error e => rw [hfa] at h; simp at h
  | ok b =>
    rw [hfa] at h
    simp at h
    cases hml : mapE f l with
    | error e => rw [hml] at h; simp [Functor.map, Except.map] at h
    | ok bs =>
      rw [hml] at h
      simp [Functor.map, Except.map] at h
      exact ⟨b, bs, rfl, rfl, h.symm⟩

theorem mapE_ok_length {α β : Type} {f : α → Except String β} :
    ∀ {l : List α} {ys : List β}, mapE f l = .ok ys → ys.length = l.length := by
  intro l
  induction l with
  | nil =>
    intro ys h
    unfold mapE at h
    cases h
    rfl
  | cons a l ih =>
    intro ys h
    obtain ⟨b, bs, _, hml, hys⟩ := mapE_ok_cons h
    subst hys
    simp [ih hml]

theorem mapE_ok_get {α β : Type} {f : α → Except String β} :
    ∀ {l : List α} {ys : List β}, mapE f l = .ok ys →
      ∀ i (hi : i < l.length) (hi2 : i < ys.length),
        f (l.get ⟨i, hi⟩) = .ok (ys.get ⟨i, hi2⟩) := by
  intro l
  induction l with
  | nil => intro ys h i hi; exact absurd hi (by simp)
  | cons a l ih =>
    intro ys h i hi hi2
    obtain ⟨b, bs, hfa, hml, hys⟩ := mapE_ok_cons h
    subst hys
    cases i with
    | zero => exact hfa
    | succ j => exact ih hml j (by simpa using hi) (by simpa using hi2)

theorem mapE_err_of_mem {α β : Type} {f : α → Except String β} :
    ∀ {l : List α} {a : α} {e : String}, a ∈ l → f a = .error e →
      ∃ msg, mapE f l = .error msg := by
  intro l
  induction l with
  | nil => intro a e ha; exact absurd ha (by simp)
  | cons x l ih =>
    intro a e ha hfa
    unfold mapE
    cases hfx : f x with
    | error m => exact ⟨m, by simp⟩
    | ok b =>
      rcases List.mem_cons.1 ha with h | h
      · subst h; rw [hfx] at hfa; cases hfa
      · obtain ⟨msg, hm⟩ := ih h hfa
        exact ⟨msg, by simp [hm, Functor.map, Except.map]⟩

theorem mapE_ok_of_forall {α β : Type} {f : α → Except String β} {g : α → β} :
    ∀ {l : List α}, (∀ a ∈ l, f a = .ok (g a)) → mapE f l = .ok (l.map g) := by
  intro l
  induction l with
  | nil => intro _; rfl
  | cons a l ih =>
    intro h
    unfold mapE
    rw [h a (by simp), ih fun x hx => h x (by simp [hx])]
    rfl

/-! ### C2: empty-input behaviour of the four exporters -/

/-- C2: for the empty record sequence, the tabular, workbook and report
exporters each fail with the documented empty-input error (wrapped by the
format-naming handler) and yield no artifact, while raw-structure export of
the empty list succeeds with payload `"[]"`, which parses back to the empty
list. -/
theorem c2_empty_input (meta : PyVal) (sid : Option String) (t : DT) :
    exportToCsv [] sid t = .error "CSV export failed: No search results to export" ∧
    exportToExcel [] meta sid t = .error "Excel export failed: No search results to export" ∧
    exportToPdfReport [] meta sid t = .error "PDF export failed: No search results to export" ∧
    exportToJson (.list []) sid t = .ok ("[]", mkFilename "property_search_" sid t ".json") ∧
    parseJson (dumps (.list [])) = some (.list []) :=
  ⟨rfl, rfl, rfl, rfl, rfl⟩

/-! ### C8: the summary builder is total and shape-tolerant -/

theorem summaryCore_ok_keys {x : PyVal} {t : DT} {s : List (String × PyVal)}
    (h : summaryCore x t = .ok s) :
    s.map Prod.fst = ["Export Date", "Total Properties", "Search Address", "Search Date"] := by
  unfold summaryCore at h
  cases hf : summaryFields x with
  | ok tas => rw [hf] at h; cases h; rfl
  | error e => rw [hf] at h; cases h

/-- C8: `get_export_summary` never raises — every input yields either the
four regular summary keys or exactly the degraded `Export Date`/`Error`
pair; the flat `{results: [...]}` shape yields its list length as Total
Properties, and the documented nested example yields Search Address
`"1 Main St"`, Total Properties `2` and Search Date `"N/A"`. -/
theorem c8_summary_total_and_shapes (x : PyVal) (t : DT) :
    ((getExportSummary x t).map Prod.fst =
        ["Export Date", "Total Properties", "Search Address", "Search Date"] ∨
      (getExportSummary x t).map Prod.fst = ["Export Date", "Error"]) ∧
    (∀ rs : List PyVal, getExportSummary (.dict [("results", .list rs)]) t =
      [("Export Date", .str (fmtDateTime t)), ("Total Properties", .int rs.length),
       ("Search Address", naV), ("Search Date", naV)]) ∧
    getExportSummary (.dict [("property_data", .dict [("address", .str "1 Main St"),
        ("results", .list [.dict [], .dict []])])]) t =
      [("Export Date", .str (fmtDateTime t)), ("Total Properties", .int 2),
       ("Search Address", .str "1 Main St"), ("Search Date", naV)] := by
  refine ⟨?_, fun rs => rfl, rfl⟩
  unfold getExportSummary
  cases h : summaryCore x t with
  | ok s => exact Or.inl (summaryCore_ok_keys h)
  | error e => exact Or.inr rfl

/-! ### C9: filename construction and collision-freedom -/

theorem padDigits_length (w n : Nat) : (padDigits w n).length = w := by
  induction w generalizing n with
  | zero => rfl
  | succ w ih => simp [padDigits, ih]

theorem digCh_inj_fin : ∀ a b : Fin 10,
    Char.ofNat (48 + a.1) = Char.ofNat (48 + b.1) → a = b := by decide

theorem padDigits_inj {w a b : Nat} (ha : a < 10 ^ w) (hb : b < 10 ^ w)
    (h : padDigits w a = padDigits w b) : a = b := by
  induction w generalizing a b with
  | zero => omega
  | succ w ih =>
    simp only [padDigits] at h
    obtain ⟨h1, h2⟩ := List.append_inj h (by simp [padDigits_length])
    have hd : a % 10 = b % 10 := by
      injection h2 with hc _
      have := digCh_inj_fin ⟨a % 10, Nat.mod_lt _ (by omega)⟩ ⟨b % 10, Nat.mod_lt _ (by omega)⟩ hc
      exact congrArg Fin.val this
    have hq : a / 10 = b / 10 := by
      have ha2 : a / 10 < 10 ^ w := by
        have : a < 10 * 10 ^ w := by rw [Nat.pow_succ] at ha; omega
        exact Nat.div_lt_of_lt_mul this
      have hb2 : b / 10 < 10 ^ w := by
        have : b < 10 * 10 ^ w := by rw [Nat.pow_succ] at hb; omega
        exact Nat.div_lt_of_lt_mul this
      exact ih ha2 hb2 h1
    omega

theorem fmtTimestamp_inj {t1 t2 : DT} (h1 : t1.Valid) (h2 : t2.Valid)
    (h : fmtTimestamp t1 = fmtTimestamp t2) : t1 = t2 := by
  obtain ⟨hy1, hm1, hm1b, hd1, hd1b, hh1, hmin1, hs1⟩ := h1
  obtain ⟨hy2, hm2, hm2b, hd2, hd2b, hh2, hmin2, hs2⟩ := h2
  unfold fmtTimestamp at h
  obtain ⟨hymd, h⟩ := List.append_inj h (by simp [padDigits_length])
  obtain ⟨hym, hda⟩ := List.append_inj hymd (by simp [padDigits_length])
  obtain ⟨hy, hmo⟩ := List.append_inj hym (by simp [padDigits_length])
  injection h with hus h
  obtain ⟨hhm, hse⟩ := List.append_inj h (by simp [padDigits_length])
  obtain ⟨hho, hmi⟩ := List.append_inj hhm (by simp [padDigits_length])
  have ey := padDigits_inj (by omega) (by omega) hy
  have emo := padDigits_inj (a := t1.month) (b := t2.month) (by omega) (by omega) hmo
  have eda := padDigits_inj (a := t1.day) (b := t2.day) (by omega) (by omega) hda
  have eho := padDigits_inj (a := t1.hour) (b := t2.hour) (by omega) (by omega) hho
  have emi := padDigits_inj (a := t1.minute) (b := t2.minute) (by omega) (by omega) hmi
  have ese := padDigits_inj (a := t1.second) (b := t2.second) (by omega) (by omega) hse
  cases t1; cases t2
  simp_all

theorem mkFilename_inj {stem ext : String} {sid : Option String} {t1 t2 : DT}
    (h1 : t1.Valid) (h2 : t2.Valid)
    (h : mkFilename stem sid t1 ext = mkFilename stem sid t2 ext) : t1 = t2 := by
  unfold mkFilename at h
  injection h with h
  have h := List.append_cancel_left h
  injection h with hus h
  have h := List.append_cancel_right h
  exact fmtTimestamp_inj h1 h2 h

/-- C9: with the identifier and format fixed, distinct valid instants (the
format has one-second granularity) always yield distinct filenames, for the
stem/extension of any of the four exporters; and when no identifier is
supplied the generated name uses the literal `export`, as witnessed on the
raw-structure exporter's full filename. -/
theorem c9_filename_distinct (stem ext : String) (sid : Option String) (t1 t2 : DT)
    (h1 : t1.Valid) (h2 : t2.Valid) (hne : t1 ≠ t2) :
    mkFilename stem sid t1 ext ≠ mkFilename stem sid t2 ext ∧
    (∀ d : PyVal, exportToJson d Option.none t1 =
      .ok (dumps d, ⟨("property_search_export_").data ++ (fmtTimestamp t1 ++ (".json").data)⟩)) := by
  constructor
  · intro h
    exact hne (mkFilename_inj h1 h2 h)
  · intro d
    rfl

/-- Witness for `c9_filename_distinct` at two instants one second apart. -/
theorem c9_filename_distinct_witness :
    mkFilename "property_search_" (some "s1") ⟨2024, 3, 7, 9, 5, 2⟩ ".csv" ≠
      mkFilename "property_search_" (some "s1") ⟨2024, 3, 7, 9, 5, 3⟩ ".csv" :=
  (c9_filename_distinct "property_search_" ".csv" (some "s1")
    ⟨2024, 3, 7, 9, 5, 2⟩ ⟨2024, 3, 7, 9, 5, 3⟩ (by decide) (by decide) (by decide)).1

/-! ### C1: there is no per-record recovery in `export_to_csv` -/

/-- C1 counterexample: a batch holding one good record and one malformed
record (truthy non-mapping `owner`) does not "skip only the offending
record": the whole tabular export aborts with a wrapped exception and no
rows are produced for the good record. -/
theorem c1_counterexample :
    exportToCsv [goodRec, badOwnerRec] (some "s1") t0 =
      .error "CSV export failed: AttributeError: object has no attribute get" := rfl

/-- C1 (amended): `export_to_csv` runs its whole body under one `try`, so a
normalization failure on any single record aborts the entire batch and the
exception (wrapped as `"CSV export failed: ..."`) propagates to the caller;
no rows are returned for the remaining records. -/
theorem c1_failure_aborts_batch (results : List PyVal) (sid : Option String) (t : DT)
    (p : PyVal) (e : String) (hp : p ∈ results) (he : csvRow p = .error e) :
    ∃ msg, exportToCsv results sid t = .error ("CSV export failed: " ++ msg) := by
  obtain ⟨msg, hm⟩ := mapE_err_of_mem hp he
  refine ⟨msg, ?_⟩
  have hne : results.isEmpty = false := by
    cases results with
    | nil => simp at hp
    | cons a l => rfl
  unfold exportToCsv exportToCsvCore
  simp [hne, hm]

/-- Witness for `c1_failure_aborts_batch` on the concrete two-record batch. -/
theorem c1_failure_aborts_batch_witness :
    badOwnerRec ∈ [goodRec, badOwnerRec] ∧
    ∃ msg, exportToCsv [goodRec, badOwnerRec] (some "s1") t0 =
      .error ("CSV export failed: " ++ msg) :=
  ⟨by simp, c1_failure_aborts_batch _ _ _ badOwnerRec
    "AttributeError: object has no attribute get" (by simp) rfl⟩

/-! ### C4: row count and order of the tabular export -/

theorem exportToCsvCore_ok {results : List PyVal} {sid : Option String} {t : DT}
    {out : CsvOut} (h : exportToCsvCore results sid t = .ok out) :
    ∃ rowDicts, mapE csvRow results = .ok rowDicts ∧
      out = ⟨unionKeys rowDicts, rowDicts.map (rowCells (unionKeys rowDicts)),
             mkFilename "property_search_" sid t ".csv"⟩ := by
  unfold exportToCsvCore at h
  cases hne : results.isEmpty with
  | true => rw [hne] at h; simp at h
  | false =>
    rw [hne] at h
    simp at h
    cases hm : mapE csvRow results with
    | error e => rw [hm] at h; simp at h
    | ok rowDicts =>
      rw [hm] at h
      simp [pure, Except.pure] at h
      exact ⟨rowDicts, rfl, h.symm⟩

theorem exportToCsv_ok {results : List PyVal} {sid : Option String} {t : DT}
    {out : CsvOut} (h : exportToCsv results sid t = .ok out) :
    exportToCsvCore results sid t = .ok out := by
  unfold exportToCsv at h
  cases hc : exportToCsvCore results sid t with
  | ok o => rw [hc] at h; cases h; rfl
  | error e => rw [hc] at h; cases h

/-- C4: whenever the tabular export succeeds (in particular whenever every
record normalizes), it emits one header row plus exactly one data row per
input record, and the i-th data row is exactly the materialization of the
i-th record's normalized row dict — input order, no re-sorting. -/
theorem c4_row_count_and_order (results : List PyVal) (sid : Option String) (t : DT)
    (out : CsvOut) (h : exportToCsv results sid t = .ok out) :
    out.rows.length = results.length ∧
    ∀ i (hi : i < results.length), ∃ nr,
      csvRow (results.get ⟨i, hi⟩) = .ok nr ∧
      out.rows[i]? = some (rowCells out.header nr) := by
  obtain ⟨rowDicts, hm, hout⟩ := exportToCsvCore_ok (exportToCsv_ok h)
  subst hout
  have hlen := mapE_ok_length hm
  refine ⟨by simpa using hlen, ?_⟩
  intro i hi
  have hi2 : i < rowDicts.length := by omega
  refine ⟨rowDicts.get ⟨i, hi2⟩, mapE_ok_get hm i hi hi2, ?_⟩
  simp [List.getElem?_map, List.getElem?_eq_getElem hi2]

/-- Witness for `c4_row_count_and_order` on a one-record batch. -/
theorem c4_row_count_and_order_witness :
    ∃ out, exportToCsv [goodRec] (some "s1") t0 = .ok out ∧ out.rows.length = 1 :=
  ⟨_, rfl, (c4_row_count_and_order [goodRec] (some "s1") t0 _ rfl).1⟩

/-! ### C3: header columns and defaults of the tabular export -/

theorem mapE_ok_mem {α β : Type} {f : α → Except String β} :
    ∀ {l : List α} {ys : List β}, mapE f l = .ok ys →
      ∀ b ∈ ys, ∃ a ∈ l, f a = .ok b := by
  intro l
  induction l with
  | nil =>
    intro ys h b hb
    unfold mapE at h
    cases h
    simp at hb
  | cons a l ih =>
    intro ys h b hb
    obtain ⟨b0, bs, hfa, hml, hys⟩ := mapE_ok_cons h
    subst hys
    rcases List.mem_cons.1 hb with h | h
    · exact ⟨a, by simp, h ▸ hfa⟩
    · obtain ⟨a2, ha2, hfa2⟩ := ih hml b h
      exact ⟨a2, by simp [ha2], hfa2⟩

theorem mapE_any_eq {α β : Type} {f : α → Except String β} {P : β → Bool} {Q : α → Bool}
    (hPQ : ∀ a b, f a = .ok b → P b = Q a) :
    ∀ {l : List α} {ys : List β}, mapE f l = .ok ys → ys.any P = l.any Q := by
  intro l
  induction l with
  | nil =>
    intro ys h
    unfold mapE at h
    cases h
    rfl
  | cons a l ih =>
    intro ys h
    obtain ⟨b, bs, hfa, hml, hys⟩ := mapE_ok_cons h
    subst hys
    simp [List.any_cons, hPQ a b hfa, ih hml]

theorem csvOwnerCols_keys {es : List (String × PyVal)} {oc : List (String × PyVal)}
    (h : csvOwnerCols es = .ok oc) :
    oc.map Prod.fst = ["Owner Names", "Owner Type"] := by
  unfold csvOwnerCols at h
  split at h
  · split at h
    · cases hn : ownerNamesVal _ with
      | ok x => rw [hn] at h; simp [Except.bind] at h; cases h.symm; rfl
      | error e => rw [hn] at h; simp [Except.bind] at h
    · simp at h
  · cases h
    rfl

theorem csvFeatCols_keys {es : List (String × PyVal)} {fc : List (String × PyVal)}
    (h : csvFeatCols es = .ok fc) :
    fc.map Prod.fst =
      if hasKey es "features" && truthy (getD es "features" .none) then featCols else [] := by
  unfold csvFeatCols at h
  split at h
  case isTrue hcond =>
    split at h
    · cases h
      rw [if_pos hcond]
      rfl
    · simp at h
  case isFalse hcond =>
    cases h
    rw [if_neg hcond]
    rfl

theorem csvRow_keys {p : PyVal} {r : List (String × PyVal)} (h : csvRow p = .ok r) :
    r.map Prod.fst = baseCols ++ (if hasTruthyKey "features" p then featCols else []) := by
  cases p with
  | dict es =>
    unfold csvRow at h
    obtain ⟨oc, hoc, h⟩ := except_bind_ok h
    obtain ⟨fc, hfc, h⟩ := except_bind_ok h
    cases h
    simp only [List.map_append, csvOwnerCols_keys hoc, csvFeatCols_keys hfc]
    have hbase : (csvBase es).map Prod.fst ++ ["Owner Names", "Owner Type"] = baseCols := by
      simp [csvBase, baseCols]
    rw [hbase]
    rfl
  | none => simp [csvRow] at h
  | bool b => simp [csvRow] at h
  | int n => simp [csvRow] at h
  | str s => simp [csvRow] at h
  | list xs => simp [csvRow] at h

theorem filter_contained_nil {keys acc : List String}
    (h : ∀ k ∈ keys, acc.contains k = true) :
    keys.filter (fun k => !acc.contains k) = [] := by
  rw [List.filter_eq_nil_iff]
  intro k hk
  have hc := h k hk
  simp at hc ⊢
  exact hc

theorem foldl_unionStep_all (rows : List (List (String × PyVal)))
    (hrows : ∀ r ∈ rows, r.map Prod.fst = baseCols ∨ r.map Prod.fst = allCols) :
    List.foldl unionStep allCols rows = allCols := by
  induction rows with
  | nil => rfl
  | cons r rows ih =>
    have hstep : unionStep allCols r = allCols := by
      unfold unionStep
      rcases hrows r (by simp) with hk | hk <;> rw [hk]
      · rw [filter_contained_nil (by decide)]; simp
      · rw [filter_contained_nil (by decide)]; simp
    rw [List.foldl_cons, hstep]
    exact ih fun r hr => hrows r (by simp [hr])

theorem foldl_unionStep_base (rows : List (List (String × PyVal)))
    (hrows : ∀ r ∈ rows, r.map Prod.fst = baseCols ∨ r.map Prod.fst = allCols) :
    List.foldl unionStep baseCols rows =
      baseCols ++ (if rows.any (fun r => r.map Prod.fst == allCols) then featCols else []) := by
  induction rows with
  | nil => simp
  | cons r rows ih =>
    rcases hrows r (by simp) with hk | hk
    · have hstep : unionStep baseCols r = baseCols := by
        unfold unionStep
        rw [hk, filter_contained_nil (by decide)]
        simp
      rw [List.foldl_cons, hstep, ih fun r hr => hrows r (by simp [hr])]
      have : (r.map Prod.fst == allCols) = false := by rw [hk]; decide
      simp [List.any_cons, this]
    · have hstep : unionStep baseCols r = allCols := by
        unfold unionStep
        rw [hk]
        have : allCols.filter (fun k => !baseCols.contains k) = featCols := by decide
        rw [this]
        rfl
      rw [List.foldl_cons, hstep,
        foldl_unionStep_all rows fun r hr => hrows r (by simp [hr])]
      have hone : (r.map Prod.fst == allCols) = true := by rw [hk]; decide
      have hcond : ((r :: rows).any fun r => r.map Prod.fst == allCols) = true := by
        rw [List.any_cons, hone]
        rfl
      rw [hcond, if_pos rfl]
      rfl

theorem unionKeys_csv (rows : List (List (String × PyVal))) (hne : rows ≠ [])
    (hrows : ∀ r ∈ rows, r.map Prod.fst = baseCols ∨ r.map Prod.fst = allCols) :
    unionKeys rows =
      baseCols ++ (if rows.any (fun r => r.map Prod.fst == allCols) then featCols else []) := by
  cases rows with
  | nil => exact absurd rfl hne
  | cons r rows =>
    unfold unionKeys
    rw [List.foldl_cons]
    have hfirst : unionStep [] r = r.map Prod.fst := by
      unfold unionStep
      simp
    rw [hfirst]
    rcases hrows r (by simp) with hk | hk
    · rw [hk, foldl_unionStep_base rows fun r hr => hrows r (by simp [hr])]
      have : (r.map Prod.fst == allCols) = false := by rw [hk]; decide
      simp [List.any_cons, this]
    · rw [hk, foldl_unionStep_all rows fun r hr => hrows r (by simp [hr])]
      have hone : (r.map Prod.fst == allCols) = true := by rw [hk]; decide
      have hcond : ((r :: rows).any fun r => r.map Prod.fst == allCols) = true := by
        rw [List.any_cons, hone]
        rfl
      rw [hcond, if_pos rfl]
      rfl

/-- C3 counterexample: a single record with no optional fields exports
successfully, but the header has only the 18 base/owner columns — not the
24 documented ones — because the six feature columns are added to a row
dict only when that record's `features` is present and truthy. -/
theorem c3_counterexample :
    exportToCsv [emptyRec] (some "s1") t0 =
      .ok ⟨baseCols, [naCells], mkFilename "property_search_" (some "s1") t0 ".csv"⟩ ∧
    baseCols ≠ allCols ∧ baseCols.length = 18 ∧ allCols.length = 24 :=
  ⟨rfl, by decide, rfl, rfl⟩

/-- C3 (amended): on every successful tabular export the header is the 18
base/owner columns in the fixed order, with the six feature columns appended
exactly when some record has truthy `features`; every data row is exactly
header-width (never shorter, no error); and a record missing every optional
field yields `"N/A"` (or `"No"` for the boolean column) in all 18 base
columns, its feature cells — when those columns exist at all — being empty
(pandas `NaN`), not `"N/A"`. -/
theorem c3_header_and_defaults (results : List PyVal) (sid : Option String)
    (t : DT) (out : CsvOut) (h : exportToCsv results sid t = .ok out) :
    out.header = baseCols ++ (if results.any (hasTruthyKey "features") then featCols else []) ∧
    (∀ row ∈ out.rows, row.length = out.header.length) ∧
    (∀ i (hi : i < results.length), results.get ⟨i, hi⟩ = emptyRec →
      out.rows[i]? = some (naCells ++
        (if results.any (hasTruthyKey "features") then List.replicate 6 Option.none else []))) := by
  obtain ⟨rowDicts, hm, hout⟩ := exportToCsvCore_ok (exportToCsv_ok h)
  subst hout
  have hne : results ≠ [] := by
    intro he
    subst he
    have hempty : exportToCsv [] sid t =
      .error "CSV export failed: No search results to export" := rfl
    rw [h] at hempty
    cases hempty
  have hrowsne : rowDicts ≠ [] := by
    intro hd
    subst hd
    have hlen := mapE_ok_length hm
    cases results with
    | nil => exact hne rfl
    | cons a l => simp at hlen
  have hkeys : ∀ r ∈ rowDicts, r.map Prod.fst = baseCols ∨ r.map Prod.fst = allCols := by
    intro r hr
    obtain ⟨a, _, hfa⟩ := mapE_ok_mem hm r hr
    have hk := csvRow_keys hfa
    cases hc : hasTruthyKey "features" a
    · rw [hc] at hk
      simp at hk
      exact Or.inl hk
    · rw [hc] at hk
      simp at hk
      exact Or.inr hk
  have hany : (rowDicts.any fun r => r.map Prod.fst == allCols) =
      results.any (hasTruthyKey "features") := by
    refine mapE_any_eq ?_ hm
    intro a b hab
    have hk := csvRow_keys hab
    cases hc : hasTruthyKey "features" a
    · rw [hc] at hk
      simp at hk
      rw [hk]
      decide
    · rw [hc] at hk
      simp at hk
      rw [hk]
      decide
  have hheader : unionKeys rowDicts =
      baseCols ++ (if results.any (hasTruthyKey "features") then featCols else []) := by
    rw [unionKeys_csv rowDicts hrowsne hkeys, hany]
  refine ⟨hheader, ?_, ?_⟩
  · intro row hrow
    simp only [List.mem_map] at hrow
    obtain ⟨r, _, hrw⟩ := hrow
    rw [← hrw]
    simp [rowCells]
  · intro i hi hempty
    have hi2 : i < rowDicts.length := by rw [mapE_ok_length hm]; exact hi
    have hnr := mapE_ok_get hm i hi hi2
    rw [hempty] at hnr
    have hconc : csvRow emptyRec =
      .ok (csvBase [] ++ [("Owner Names", naV), ("Owner Type", naV)]) := rfl
    rw [hconc] at hnr
    injection hnr with hnr
    rw [List.get_eq_getElem] at hnr
    simp only [List.getElem?_map, List.getElem?_eq_getElem hi2]
    rw [← hnr, hheader]
    cases hc : results.any (hasTruthyKey "features") <;> rfl

/-- Witness for `c3_header_and_defaults` on a batch where one record has
features and the other has no fields at all. -/
theorem c3_header_and_defaults_witness :
    ∃ out, exportToCsv [fullRec, emptyRec] (some "s1") t0 = .ok out ∧
      out.header = baseCols ++
        (if [fullRec, emptyRec].any (hasTruthyKey "features") then featCols else []) :=
  ⟨_, rfl, (c3_header_and_defaults [fullRec, emptyRec] (some "s1") t0 _ rfl).1⟩

/-! ### C7: the columns of the workbook's `Properties` sheet -/

theorem exportToExcelCore_ok {results : List PyVal} {meta : PyVal} {sid : Option String}
    {t : DT} {out : ExcelOut} (h : exportToExcelCore results meta sid t = .ok out) :
    ∃ mainRows taxRows ptaxRows metaRows,
      mapE excelRow results = .ok mainRows ∧
      taxAssessRows results = .ok taxRows ∧
      propertyTaxRows results = .ok ptaxRows ∧
      searchInfoRows meta = .ok metaRows ∧
      results ≠ [] ∧
      out = ⟨[("Properties", mkSheet mainRows)]
        ++ (if taxRows.isEmpty then [] else [("Tax Assessments", mkSheet taxRows)])
        ++ (if ptaxRows.isEmpty then [] else [("Property Taxes", mkSheet ptaxRows)])
        ++ (match metaRows with
            | some rs => [("Search Info", mkSheet rs)]
            | Option.none => []),
        mkFilename "property_search_" sid t ".xlsx"⟩ := by
  unfold exportToExcelCore at h
  cases hne : results.isEmpty with
  | true => rw [hne] at h; simp at h
  | false =>
    rw [hne] at h
    simp only [Bool.false_eq_true, if_false] at h
    obtain ⟨mainRows, hmain, h⟩ := except_bind_ok h
    obtain ⟨taxRows, htax, h⟩ := except_bind_ok h
    obtain ⟨ptaxRows, hptax, h⟩ := except_bind_ok h
    obtain ⟨metaRows, hmeta, h⟩ := except_bind_ok h
    cases h
    refine ⟨mainRows, taxRows, ptaxRows, metaRows, hmain, htax, hptax, hmeta, ?_, rfl⟩
    intro he
    subst he
    cases hne

theorem exportToExcel_ok {results : List PyVal} {meta : PyVal} {sid : Option String}
    {t : DT} {out : ExcelOut} (h : exportToExcel results meta sid t = .ok out) :
    exportToExcelCore results meta sid t = .ok out := by
  unfold exportToExcel at h
  cases hc : exportToExcelCore results meta sid t with
  | ok o => rw [hc] at h; cases h; rfl
  | error e => rw [hc] at h; cases h

theorem excelRow_keys {p : PyVal} {r : List (String × PyVal)} (h : excelRow p = .ok r) :
    r.map Prod.fst = excelCols := by
  cases p with
  | dict es => cases h; rfl
  | none => cases h
  | bool b => cases h
  | int n => cases h
  | str s => cases h
  | list xs => cases h

theorem unionKeys_uniform {K : List String} :
    ∀ (rows : List (List (String × PyVal))), rows ≠ [] →
      (∀ r ∈ rows, r.map Prod.fst = K) → unionKeys rows = K := by
  have hstepK : ∀ r : List (String × PyVal), r.map Prod.fst = K → unionStep K r = K := by
    intro r hk
    unfold unionStep
    rw [hk, filter_contained_nil]
    · simp
    · intro k hk2
      exact List.elem_eq_true_of_mem hk2
  have haux : ∀ rows, (∀ r ∈ rows, r.map Prod.fst = K) →
      List.foldl unionStep K rows = K := by
    intro rows
    induction rows with
    | nil => intro _; rfl
    | cons r rows ih =>
      intro hr
      rw [List.foldl_cons, hstepK r (hr r (by simp))]
      exact ih fun x hx => hr x (by simp [hx])
  intro rows hne hr
  cases rows with
  | nil => exact absurd rfl hne
  | cons r rows =>
    unfold unionKeys
    rw [List.foldl_cons]
    have hfirst : unionStep [] r = K := by
      unfold unionStep
      simpa using hr r (by simp)
    rw [hfirst]
    exact haux rows fun x hx => hr x (by simp [hx])

/-- C7 counterexample: on a record that carries assessor and owner data the
`Properties` sheet of the workbook has only 15 columns — Assessor ID, Owner
Names and Owner Type are absent — not the 18 §4.1 base columns the claim
lists. -/
theorem c7_counterexample :
    (exportToExcel [fullRec] PyVal.none (some "s1") t0).map
        (fun out => (out.sheets.lookup "Properties").map Sheet.header) =
      .ok (some excelCols) ∧
    excelCols ≠ baseCols ∧ excelCols.length = 15 :=
  ⟨rfl, by decide, rfl⟩

/-- C7 (amended): on every successful non-empty workbook export the
`Properties` sheet is present with exactly the 15 columns Address, City,
State, ZIP Code, Property Type, Bedrooms, Bathrooms, Square Footage, Lot
Size, Year Built, Last Sale Price, Last Sale Date, Owner Occupied, County,
Zoning — without Assessor ID, Owner Names or Owner Type — and one row per
input record. -/
theorem c7_properties_sheet (results : List PyVal) (meta : PyVal) (sid : Option String)
    (t : DT) (out : ExcelOut) (h : exportToExcel results meta sid t = .ok out) :
    ∃ sh, out.sheets.lookup "Properties" = some sh ∧
      sh.header = excelCols ∧ sh.rows.length = results.length := by
  obtain ⟨mainRows, taxRows, ptaxRows, metaRows, hmain, _, _, _, hne, hout⟩ :=
    exportToExcelCore_ok (exportToExcel_ok h)
  subst hout
  have hlen := mapE_ok_length hmain
  have hrowsne : mainRows ≠ [] := by
    intro hd
    subst hd
    cases results with
    | nil => exact hne rfl
    | cons a l => simp at hlen
  have hkeys : ∀ r ∈ mainRows, r.map Prod.fst = excelCols := by
    intro r hr
    obtain ⟨a, _, hfa⟩ := mapE_ok_mem hmain r hr
    exact excelRow_keys hfa
  refine ⟨mkSheet mainRows, rfl, ?_, ?_⟩
  · show unionKeys mainRows = excelCols
    exact unionKeys_uniform mainRows hrowsne hkeys
  · show (mainRows.map (rowCells (unionKeys mainRows))).length = results.length
    simp [hlen]

/-- Witness for `c7_properties_sheet` on a one-record workbook. -/
theorem c7_properties_sheet_witness :
    ∃ out, exportToExcel [fullRec] PyVal.none (some "s1") t0 = .ok out ∧
      ∃ sh, out.sheets.lookup "Properties" = some sh ∧
        sh.header = excelCols ∧ sh.rows.length = 1 :=
  ⟨_, rfl, c7_properties_sheet [fullRec] PyVal.none (some "s1") t0 _ rfl⟩

/-! ### C6: conditional `Tax Assessments` / `Property Taxes` sheets -/

theorem mapE_ok_eq_map {α β : Type} {f : α → Except String β} {g : α → β} :
    ∀ {l : List α} {ys : List β}, mapE f l = .ok ys →
      (∀ a b, f a = .ok b → b = g a) → ys = l.map g := by
  intro l
  induction l with
  | nil =>
    intro ys h _
    unfold mapE at h
    cases h
    rfl
  | cons a l ih =>
    intro ys h hg
    obtain ⟨b, bs, hfa, hml, hys⟩ := mapE_ok_cons h
    subst hys
    rw [List.map_cons, hg a b hfa, ih hml hg]

theorem taxAssessRec_ok {i : Nat} {q : PyVal} {l : List (List (String × PyVal))}
    (h : taxAssessRec (i, q) = .ok l) :
    l = (yearEntries "taxAssessments" q).map (specTaxRow i q) := by
  cases q with
  | dict es =>
    unfold taxAssessRec at h
    dsimp only at h
    cases hcond : (hasKey es "taxAssessments" && truthy (getD es "taxAssessments" .none)) with
    | false =>
      rw [hcond] at h
      have h2 : Except.ok ([] : List (List (String × PyVal))) = Except.ok l := h
      cases h2
      unfold yearEntries
      have hck : hasTruthyKey "taxAssessments" (.dict es) = false := hcond
      rw [hck]
      rfl
    | true =>
      rw [hcond] at h
      cases hv : getD es "taxAssessments" PyVal.none with
      | dict tes =>
        rw [hv] at h
        have hpt : l = tes.map (specTaxRow i (.dict es)) := by
          refine mapE_ok_eq_map h ?_
          intro yd b hb
          cases hyd : yd.2 with
          | dict des =>
            rw [hyd] at hb
            cases hb
            unfold specTaxRow vGetD
            rw [hyd]
          | none => rw [hyd] at hb; cases hb
          | bool c => rw [hyd] at hb; cases hb
          | int n => rw [hyd] at hb; cases hb
          | str s => rw [hyd] at hb; cases hb
          | list xs => rw [hyd] at hb; cases hb
        rw [hpt]
        unfold yearEntries
        have hck : hasTruthyKey "taxAssessments" (.dict es) = true := hcond
        rw [hck]
        simp only [if_true]
        have hvv : vGetD (.dict es) "taxAssessments" PyVal.none = .dict tes := hv
        rw [hvv]
      | none => rw [hv] at h; cases h
      | bool c => rw [hv] at h; cases h
      | int n => rw [hv] at h; cases h
      | str s => rw [hv] at h; cases h
      | list xs => rw [hv] at h; cases h
  | none => cases h
  | bool b => cases h
  | int n => cases h
  | str s => cases h
  | list xs => cases h

theorem propertyTaxRec_ok {i : Nat} {q : PyVal} {l : List (List (String × PyVal))}
    (h : propertyTaxRec (i, q) = .ok l) :
    l = (yearEntries "propertyTaxes" q).map (specPTaxRow i q) := by
  cases q with
  | dict es =>
    unfold propertyTaxRec at h
    dsimp only at h
    cases hcond : (hasKey es "propertyTaxes" && truthy (getD es "propertyTaxes" .none)) with
    | false =>
      rw [hcond] at h
      have h2 : Except.ok ([] : List (List (String × PyVal))) = Except.ok l := h
      cases h2
      unfold yearEntries
      have hck : hasTruthyKey "propertyTaxes" (.dict es) = false := hcond
      rw [hck]
      rfl
    | true =>
      rw [hcond] at h
      cases hv : getD es "propertyTaxes" PyVal.none with
      | dict tes =>
        rw [hv] at h
        have hpt : l = tes.map (specPTaxRow i (.dict es)) := by
          refine mapE_ok_eq_map h ?_
          intro yd b hb
          cases hyd : yd.2 with
          | dict des =>
            rw [hyd] at hb
            cases hb
            unfold specPTaxRow vGetD
            rw [hyd]
          | none => rw [hyd] at hb; cases hb
          | bool c => rw [hyd] at hb; cases hb
          | int n => rw [hyd] at hb; cases hb
          | str s => rw [hyd] at hb; cases hb
          | list xs => rw [hyd] at hb; cases hb
        rw [hpt]
        unfold yearEntries
        have hck : hasTruthyKey "propertyTaxes" (.dict es) = true := hcond
        rw [hck]
        simp only [if_true]
        have hvv : vGetD (.dict es) "propertyTaxes" PyVal.none = .dict tes := hv
        rw [hvv]
      | none => rw [hv] at h; cases h
      | bool c => rw [hv] at h; cases h
      | int n => rw [hv] at h; cases h
      | str s => rw [hv] at h; cases h
      | list xs => rw [hv] at h; cases h
  | none => cases h
  | bool b => cases h
  | int n => cases h
  | str s => cases h
  | list xs => cases h

theorem taxAssessRows_ok {results : List PyVal} {rows : List (List (String × PyVal))}
    (h : taxAssessRows results = .ok rows) : rows = specTaxRows results := by
  unfold taxAssessRows at h
  obtain ⟨rowss, hm, h2⟩ := except_bind_ok h
  cases h2
  have := mapE_ok_eq_map hm fun a b hb => taxAssessRec_ok hb
  rw [this]
  unfold specTaxRows
  rw [List.flatMap_def]

theorem propertyTaxRows_ok {results : List PyVal} {rows : List (List (String × PyVal))}
    (h : propertyTaxRows results = .ok rows) : rows = specPTaxRows results := by
  unfold propertyTaxRows at h
  obtain ⟨rowss, hm, h2⟩ := except_bind_ok h
  cases h2
  have := mapE_ok_eq_map hm fun a b hb => propertyTaxRec_ok hb
  rw [this]
  unfold specPTaxRows
  rw [List.flatMap_def]

theorem yearEntries_ne_nil_iff (k : String) (p : PyVal) :
    yearEntries k p ≠ [] ↔ ∃ tes, tes ≠ [] ∧ vGetD p k .none = .dict tes := by
  unfold yearEntries
  cases hc : hasTruthyKey k p with
  | false =>
    simp only [Bool.false_eq_true, if_false, ne_eq, not_true_eq_false, false_iff, not_exists]
    intro tes hcontra
    obtain ⟨htes, hv⟩ := hcontra
    cases p with
    | dict es =>
      have hv2 : getD es k PyVal.none = PyVal.dict tes := hv
      have hkk : hasKey es k = true := by
        unfold hasKey
        unfold getD at hv2
        cases hl : es.lookup k with
        | some v => rfl
        | none => rw [hl] at hv2; simp at hv2
      have hc2 : (hasKey es k && truthy (getD es k PyVal.none)) = false := hc
      rw [hkk, hv2] at hc2
      simp [truthy] at hc2
      exact htes hc2
    | none => simp [vGetD] at hv
    | bool b => simp [vGetD] at hv
    | int n => simp [vGetD] at hv
    | str s => simp [vGetD] at hv
    | list xs => simp [vGetD] at hv
  | true =>
    cases p with
    | dict es =>
      rw [if_pos rfl]
      cases hv : vGetD (.dict es) k PyVal.none with
      | dict tes =>
        constructor
        · intro hne
          exact ⟨tes, hne, rfl⟩
        · rintro ⟨tes2, htes2, heq⟩
          injection heq with heq
          rw [heq]
          exact htes2
      | none => simp
      | bool b => simp
      | int n => simp
      | str s => simp
      | list xs => simp
    | none => exact Bool.noConfusion hc
    | bool b =>
      unfold hasTruthyKey at hc
      exact Bool.noConfusion hc
    | int n => exact Bool.noConfusion hc
    | str s => exact Bool.noConfusion hc
    | list xs => exact Bool.noConfusion hc

theorem specRows_ne_nil_iff (k : String)
    (build : Nat → PyVal → (String × PyVal) → List (String × PyVal))
    (results : List PyVal) :
    (results.enum.flatMap fun p => (yearEntries k p.2).map (build p.1 p.2)) ≠ [] ↔
    ∃ p ∈ results, ∃ tes, tes ≠ [] ∧ vGetD p k .none = .dict tes := by
  rw [Ne, List.flatMap_eq_nil_iff]
  constructor
  · intro hno
    push_neg at hno
    obtain ⟨x, hx, hne⟩ := hno
    have hx2 : results[x.1]? = some x.2 := List.mem_enum_iff_getElem?.1 hx
    have hmem : x.2 ∈ results := by
      cases hg : results[x.1]? with
      | some v => rw [hg] at hx2; cases hx2; exact List.getElem?_mem hg
      | none => rw [hg] at hx2; cases hx2
    have hye : yearEntries k x.2 ≠ [] := by
      intro hz
      exact hne (by rw [hz]; rfl)
    obtain ⟨tes, htes, hv⟩ := (yearEntries_ne_nil_iff k x.2).1 hye
    exact ⟨x.2, hmem, tes, htes, hv⟩
  · rintro ⟨p, hp, tes, htes, hv⟩ hall
    obtain ⟨i, hi, hieq⟩ := List.mem_iff_getElem.1 hp
    have hmemE : (i, p) ∈ results.enum := by
      rw [List.mk_mem_enum_iff_getElem?]
      rw [List.getElem?_eq_getElem hi, hieq]
    have := hall (i, p) hmemE
    rw [List.map_eq_nil_iff] at this
    exact (yearEntries_ne_nil_iff k p).2 ⟨tes, htes, hv⟩ this

theorem lookup_conditional_sheets (A B C : List (List (String × PyVal)))
    (M : Option (List (List (String × PyVal)))) :
    (([("Properties", mkSheet A)]
      ++ (if B.isEmpty then [] else [("Tax Assessments", mkSheet B)])
      ++ (if C.isEmpty then [] else [("Property Taxes", mkSheet C)])
      ++ (match M with
          | some rs => [("Search Info", mkSheet rs)]
          | Option.none => [])).lookup "Tax Assessments" =
        (if B.isEmpty then Option.none else some (mkSheet B))) ∧
    (([("Properties", mkSheet A)]
      ++ (if B.isEmpty then [] else [("Tax Assessments", mkSheet B)])
      ++ (if C.isEmpty then [] else [("Property Taxes", mkSheet C)])
      ++ (match M with
          | some rs => [("Search Info", mkSheet rs)]
          | Option.none => [])).lookup "Property Taxes" =
        (if C.isEmpty then Option.none else some (mkSheet C))) := by
  cases hB : B.isEmpty <;> cases hC : C.isEmpty <;> cases M <;> exact ⟨rfl, rfl⟩

/-- C6: on every successful non-empty workbook export, the `Tax Assessments`
sheet is present iff some input record's `taxAssessments` is a non-empty
mapping (same for `Property Taxes` / `propertyTaxes`); when present, the
sheet's content is exactly the materialized `specTaxRows` / `specPTaxRows`
comprehension — one row per (record, year) pair in input order, each row
carrying the 1-based Property Index of its record. -/
theorem c6_conditional_sheets (results : List PyVal) (meta : PyVal) (sid : Option String)
    (t : DT) (out : ExcelOut) (h : exportToExcel results meta sid t = .ok out) :
    ((out.sheets.lookup "Tax Assessments").isSome ↔
      ∃ p ∈ results, ∃ tes, tes ≠ [] ∧ vGetD p "taxAssessments" .none = .dict tes) ∧
    ((out.sheets.lookup "Property Taxes").isSome ↔
      ∃ p ∈ results, ∃ tes, tes ≠ [] ∧ vGetD p "propertyTaxes" .none = .dict tes) ∧
    (∀ sh, out.sheets.lookup "Tax Assessments" = some sh →
      sh = mkSheet (specTaxRows results)) ∧
    (∀ sh, out.sheets.lookup "Property Taxes" = some sh →
      sh = mkSheet (specPTaxRows results)) := by
  obtain ⟨mainRows, taxRows, ptaxRows, metaRows, _, htax, hptax, _, _, hout⟩ :=
    exportToExcelCore_ok (exportToExcel_ok h)
  subst hout
  have htr := taxAssessRows_ok htax
  have hpr := propertyTaxRows_ok hptax
  obtain ⟨hlook1, hlook2⟩ := lookup_conditional_sheets mainRows taxRows ptaxRows metaRows
  refine ⟨?_, ?_, ?_, ?_⟩
  · show (List.lookup _ _).isSome ↔ _
    rw [hlook1]
    cases hB : taxRows.isEmpty with
    | true =>
      have hnil : taxRows = [] := List.isEmpty_iff.1 hB
      simp only [if_true, Option.isSome_none, Bool.false_eq_true, false_iff]
      intro hex
      have h3 : specTaxRows results ≠ [] :=
        (specRows_ne_nil_iff "taxAssessments" specTaxRow results).2 hex
      rw [← htr] at h3
      exact h3 hnil
    | false =>
      have hnil : taxRows ≠ [] := by
        intro hz
        rw [hz] at hB
        cases hB
      simp only [Bool.false_eq_true, if_false, Option.isSome_some, true_iff]
      have : specTaxRows results ≠ [] := htr ▸ hnil
      exact (specRows_ne_nil_iff "taxAssessments" specTaxRow results).1 this
  · show (List.lookup _ _).isSome ↔ _
    rw [hlook2]
    cases hB : ptaxRows.isEmpty with
    | true =>
      have hnil : ptaxRows = [] := List.isEmpty_iff.1 hB
      simp only [if_true, Option.isSome_none, Bool.false_eq_true, false_iff]
      intro hex
      have h3 : specPTaxRows results ≠ [] :=
        (specRows_ne_nil_iff "propertyTaxes" specPTaxRow results).2 hex
      rw [← hpr] at h3
      exact h3 hnil
    | false =>
      have hnil : ptaxRows ≠ [] := by
        intro hz
        rw [hz] at hB
        cases hB
      simp only [Bool.false_eq_true, if_false, Option.isSome_some, true_iff]
      have : specPTaxRows results ≠ [] := hpr ▸ hnil
      exact (specRows_ne_nil_iff "propertyTaxes" specPTaxRow results).1 this
  · intro sh hsh
    rw [hlook1] at hsh
    cases hB : taxRows.isEmpty with
    | true => rw [hB] at hsh; cases hsh
    | false =>
      rw [hB] at hsh
      simp only [Bool.false_eq_true, if_false, Option.some.injEq] at hsh
      rw [← hsh, htr]
  · intro sh hsh
    rw [hlook2] at hsh
    cases hB : ptaxRows.isEmpty with
    | true => rw [hB] at hsh; cases hsh
    | false =>
      rw [hB] at hsh
      simp only [Bool.false_eq_true, if_false, Option.some.injEq] at hsh
      rw [← hsh, hpr]

/-- Witness for `c6_conditional_sheets` on a one-record workbook whose
record carries both a tax assessment and a property tax year. -/
theorem c6_conditional_sheets_witness :
    ∃ out, exportToExcel [taxRec] PyVal.none (some "s1") t0 = .ok out ∧
      ((out.sheets.lookup "Tax Assessments").isSome ↔
        ∃ p ∈ [taxRec], ∃ tes, tes ≠ [] ∧ vGetD p "taxAssessments" .none = .dict tes) :=
  ⟨_, rfl, (c6_conditional_sheets [taxRec] PyVal.none (some "s1") t0 _ rfl).1⟩

/-! ### C10: falsy `squareFootage` / `lastSalePrice` / `ownerOccupied` in the
report table -/

theorem lookup_filter_ne {es : List (String × PyVal)} {k k' : String} (h : ¬ k = k') :
    (es.filter fun e => e.1 != k').lookup k = es.lookup k := by
  induction es with
  | nil => rfl
  | cons e es ih =>
    obtain ⟨k1, v1⟩ := e
    rw [List.filter_cons]
    by_cases he : k1 = k'
    · subst he
      simp only [bne_self_eq_false, Bool.false_eq_true, if_false]
      rw [ih]
      have hbeq : (k == k1) = false := beq_eq_false_iff_ne.2 h
      simp only [List.lookup, hbeq]
    · have hb : (k1 != k') = true := bne_iff_ne.2 he
      rw [hb, if_pos rfl]
      cases hk : k == k1 with
      | true => simp only [List.lookup, hk]
      | false =>
        simp only [List.lookup, hk]
        exact ih

theorem lookup_filter_self (es : List (String × PyVal)) (k : String) :
    (es.filter fun e => e.1 != k).lookup k = Option.none := by
  induction es with
  | nil => rfl
  | cons e es ih =>
    obtain ⟨k1, v1⟩ := e
    rw [List.filter_cons]
    by_cases he : k1 = k
    · subst he
      simp only [bne_self_eq_false, Bool.false_eq_true, if_false]
      exact ih
    · have hb : (k1 != k) = true := bne_iff_ne.2 he
      rw [hb, if_pos rfl]
      have hbeq : (k == k1) = false := beq_eq_false_iff_ne.2 fun hkk => he hkk.symm
      simp only [List.lookup, hbeq]
      exact ih

theorem getD_filter_ne {es : List (String × PyVal)} {k k' : String} (d : PyVal)
    (h : ¬ k = k') : getD (es.filter fun e => e.1 != k') k d = getD es k d := by
  unfold getD
  rw [lookup_filter_ne h]

theorem getD_filter_self (es : List (String × PyVal)) (k : String) (d : PyVal) :
    getD (es.filter fun e => e.1 != k) k d = d := by
  unfold getD
  rw [lookup_filter_self]
  rfl

/-- C10: in the report's 8-row property table, a `squareFootage` or
`lastSalePrice` that is present but falsy (for instance the number `0`)
renders `"N/A"` and a falsy `ownerOccupied` renders `"No"`; in all three
cases the whole table equals the one produced with the field removed, so
presence-with-a-falsy-value is indistinguishable from absence. -/
theorem c10_falsy_fields (es : List (String × PyVal)) (v : PyVal) :
    (es.lookup "squareFootage" = some v → truthy v = false →
      pdfPropRows (.dict es) =
        pdfPropRows (.dict (es.filter fun e => e.1 != "squareFootage"))) ∧
    (es.lookup "lastSalePrice" = some v → truthy v = false →
      pdfPropRows (.dict es) =
        pdfPropRows (.dict (es.filter fun e => e.1 != "lastSalePrice"))) ∧
    (es.lookup "ownerOccupied" = some v → truthy v = false →
      pdfPropRows (.dict es) =
        pdfPropRows (.dict (es.filter fun e => e.1 != "ownerOccupied"))) ∧
    (es.lookup "squareFootage" = some v → truthy v = false →
      ∀ rows, pdfPropRows (.dict es) = .ok rows →
        rows[4]? = some [PyVal.str "Square Footage", PyVal.str "N/A"]) ∧
    (es.lookup "lastSalePrice" = some v → truthy v = false →
      ∀ rows, pdfPropRows (.dict es) = .ok rows →
        rows[6]? = some [PyVal.str "Last Sale Price", PyVal.str "N/A"]) ∧
    (es.lookup "ownerOccupied" = some v → truthy v = false →
      ∀ rows, pdfPropRows (.dict es) = .ok rows →
        rows[7]? = some [PyVal.str "Owner Occupied", PyVal.str "No"]) := by
  have hsq : es.lookup "squareFootage" = some v → truthy v = false →
      sqftCell es = .ok "N/A" := by
    intro hv hf
    unfold sqftCell
    have hg : getD es "squareFootage" PyVal.none = v := by
      unfold getD
      rw [hv]
      rfl
    rw [hg, hf]
    rfl
  have hpc : es.lookup "lastSalePrice" = some v → truthy v = false →
      priceCell es = .ok "N/A" := by
    intro hv hf
    unfold priceCell
    have hg : getD es "lastSalePrice" PyVal.none = v := by
      unfold getD
      rw [hv]
      rfl
    rw [hg, hf]
    rfl
  have hoc : es.lookup "ownerOccupied" = some v → truthy v = false →
      yesNo (getD es "ownerOccupied" PyVal.none) = PyVal.str "No" := by
    intro hv hf
    unfold yesNo
    have hg : getD es "ownerOccupied" PyVal.none = v := by
      unfold getD
      rw [hv]
      rfl
    rw [hg, hf]
    rfl
  refine ⟨?_, ?_, ?_, ?_, ?_, ?_⟩
  · intro hv hf
    simp only [pdfPropRows]
    rw [hsq hv hf]
    have h1 : sqftCell (es.filter fun e => e.1 != "squareFootage") = .ok "N/A" := by
      unfold sqftCell
      rw [getD_filter_self]
      rfl
    rw [h1]
    have h2 : priceCell (es.filter fun e => e.1 != "squareFootage") = priceCell es := by
      unfold priceCell
      rw [getD_filter_ne _ (by decide), getD_filter_ne _ (by decide)]
    rw [h2]
    cases priceCell es with
    | error e => rfl
    | ok price =>
      simp only [ok_bind]
      rw [getD_filter_ne _ (by decide), getD_filter_ne _ (by decide),
        getD_filter_ne _ (by decide), getD_filter_ne _ (by decide),
        getD_filter_ne _ (by decide), getD_filter_ne _ (by decide)]
  · intro hv hf
    simp only [pdfPropRows]
    rw [hpc hv hf]
    have h1 : priceCell (es.filter fun e => e.1 != "lastSalePrice") = .ok "N/A" := by
      unfold priceCell
      rw [getD_filter_self]
      rfl
    rw [h1]
    have h2 : sqftCell (es.filter fun e => e.1 != "lastSalePrice") = sqftCell es := by
      unfold sqftCell
      rw [getD_filter_ne _ (by decide), getD_filter_ne _ (by decide)]
    rw [h2]
    cases sqftCell es with
    | error e => rfl
    | ok sqft =>
      simp only [ok_bind]
      rw [getD_filter_ne _ (by decide), getD_filter_ne _ (by decide),
        getD_filter_ne _ (by decide), getD_filter_ne _ (by decide),
        getD_filter_ne _ (by decide), getD_filter_ne _ (by decide)]
  · intro hv hf
    simp only [pdfPropRows]
    have h1 : sqftCell (es.filter fun e => e.1 != "ownerOccupied") = sqftCell es := by
      unfold sqftCell
      rw [getD_filter_ne _ (by decide), getD_filter_ne _ (by decide)]
    have h2 : priceCell (es.filter fun e => e.1 != "ownerOccupied") = priceCell es := by
      unfold priceCell
      rw [getD_filter_ne _ (by decide), getD_filter_ne _ (by decide)]
    rw [h1, h2]
    cases sqftCell es with
    | error e => rfl
    | ok sqft =>
      cases priceCell es with
      | error e => rfl
      | ok price =>
        simp only [ok_bind]
        rw [getD_filter_ne _ (by decide), getD_filter_ne _ (by decide),
          getD_filter_ne _ (by decide), getD_filter_ne _ (by decide),
          getD_filter_ne _ (by decide), getD_filter_self]
        rw [hoc hv hf]
        have hyn : yesNo PyVal.none = PyVal.str "No" := rfl
        rw [hyn]
  · intro hv hf rows hrows
    simp only [pdfPropRows] at hrows
    rw [hsq hv hf] at hrows
    simp only [ok_bind] at hrows
    obtain ⟨price, _, h2⟩ := except_bind_ok hrows
    cases h2
    rfl
  · intro hv hf rows hrows
    simp only [pdfPropRows] at hrows
    rw [hpc hv hf] at hrows
    cases hs : sqftCell es with
    | error e => rw [hs] at hrows; cases hrows
    | ok sqft =>
      rw [hs] at hrows
      simp only [ok_bind] at hrows
      cases hrows
      rfl
  · intro hv hf rows hrows
    simp only [pdfPropRows] at hrows
    obtain ⟨sqft, _, h2⟩ := except_bind_ok hrows
    obtain ⟨price, _, h3⟩ := except_bind_ok h2
    cases h3
    simp only [List.getElem?_cons_succ, List.getElem?_cons_zero]
    rw [hoc hv hf]

/-- Witness for `c10_falsy_fields`: `squareFootage` present as the number
`0` renders exactly like an absent field. -/
theorem c10_falsy_fields_witness :
    pdfPropRows (.dict [("squareFootage", PyVal.int 0)]) =
      pdfPropRows (.dict ([("squareFootage", PyVal.int 0)].filter
        fun e => e.1 != "squareFootage")) :=
  (c10_falsy_fields [("squareFootage", PyVal.int 0)] (PyVal.int 0)).1 rfl rfl

/-! ### C5: decimal-digit lemmas -/

theorem natDigitsF_fuel : ∀ f1 f2 n : Nat, n < f1 → n < f2 →
    natDigitsF f1 n = natDigitsF f2 n := by
  intro f1
  induction f1 with
  | zero => intro f2 n h1; omega
  | succ f1 ih =>
    intro f2 n h1 h2
    cases f2 with
    | zero => omega
    | succ f2 =>
      unfold natDigitsF
      by_cases hn : n < 10
      · rw [if_pos hn, if_pos hn]
      · rw [if_neg hn, if_neg hn]
        have hd : n / 10 < n := Nat.div_lt_self (by omega) (by omega)
        rw [ih f2 (n / 10) (by omega) (by omega)]

theorem natDigits_lt10 {n : Nat} (h : n < 10) :
    natDigits n = [Char.ofNat (48 + n)] := by
  unfold natDigits natDigitsF
  rw [if_pos h]

theorem natDigits_ge10 {n : Nat} (h : 10 ≤ n) :
    natDigits n = natDigits (n / 10) ++ [Char.ofNat (48 + n % 10)] := by
  have hd : n / 10 < n := Nat.div_lt_self (by omega) (by omega)
  have h2 : natDigitsF (n + 1) n =
      if n < 10 then [Char.ofNat (48 + n)]
      else natDigitsF n (n / 10) ++ [Char.ofNat (48 + n % 10)] := rfl
  show natDigitsF (n + 1) n = _
  rw [h2, if_neg (by omega),
    natDigitsF_fuel n (n / 10 + 1) (n / 10) (by omega) (by omega)]
  rfl

theorem digCh_toNat_fin : ∀ d : Fin 10, (Char.ofNat (48 + d.1)).toNat = 48 + d.1 := by decide

theorem digCh_isDigit_fin : ∀ d : Fin 10, isDigitCh (Char.ofNat (48 + d.1)) = true := by decide

theorem digCh_toNat {n : Nat} (h : n < 10) : (Char.ofNat (48 + n)).toNat = 48 + n :=
  digCh_toNat_fin ⟨n, h⟩

theorem digCh_isDigit {n : Nat} (h : n < 10) : isDigitCh (Char.ofNat (48 + n)) = true :=
  digCh_isDigit_fin ⟨n, h⟩

theorem natDigits_ne_nil (n : Nat) : natDigits n ≠ [] := by
  by_cases h : n < 10
  · rw [natDigits_lt10 h]
    simp
  · rw [natDigits_ge10 (by omega)]
    simp

theorem natDigits_all_digits (n : Nat) : ∀ c ∈ natDigits n, isDigitCh c = true := by
  induction n using Nat.strong_induction_on with
  | _ n ih =>
    by_cases h : n < 10
    · rw [natDigits_lt10 h]
      intro c hc
      rw [List.mem_singleton] at hc
      subst hc
      exact digCh_isDigit h
    · rw [natDigits_ge10 (by omega)]
      intro c hc
      rcases List.mem_append.1 hc with hm | hm
      · exact ih (n / 10) (Nat.div_lt_self (by omega) (by omega)) c hm
      · rw [List.mem_singleton] at hm
        subst hm
        exact digCh_isDigit (Nat.mod_lt _ (by omega))

theorem digitsVal_append_singleton (l : List Char) (c : Char) :
    digitsVal (l ++ [c]) = 10 * digitsVal l + (c.toNat - 48) := by
  unfold digitsVal
  rw [List.foldl_append]
  rfl

theorem digitsVal_natDigits (n : Nat) : digitsVal (natDigits n) = n := by
  induction n using Nat.strong_induction_on with
  | _ n ih =>
    by_cases h : n < 10
    · rw [natDigits_lt10 h]
      show 10 * 0 + ((Char.ofNat (48 + n)).toNat - 48) = n
      rw [digCh_toNat h]
      omega
    · rw [natDigits_ge10 (by omega), digitsVal_append_singleton,
        ih (n / 10) (Nat.div_lt_self (by omega) (by omega)),
        digCh_toNat (Nat.mod_lt _ (by omega))]
      omega

theorem numStop_head {rest : List Char} (h : numStop rest = true) :
    ∀ c cs, rest = c :: cs → isDigitCh c = false := by
  intro c cs hr
  subst hr
  unfold numStop at h
  simp only [Bool.not_eq_true', Bool.or_eq_false_iff] at h
  exact h.1.1.1

theorem numStop_numOk {rest : List Char} (h : numStop rest = true) : numOk rest = true := by
  cases rest with
  | nil => rfl
  | cons c cs =>
    unfold numStop at h
    unfold numOk
    simp only [Bool.not_eq_true', Bool.or_eq_false_iff] at h ⊢
    exact ⟨⟨h.1.1.2, h.1.2⟩, h.2⟩

theorem takeDigits_append {ds rest : List Char}
    (hds : ∀ c ∈ ds, isDigitCh c = true)
    (hrest : ∀ c cs, rest = c :: cs → isDigitCh c = false) :
    takeDigits (ds ++ rest) = (ds, rest) := by
  induction ds with
  | nil =>
    cases rest with
    | nil => rfl
    | cons c cs =>
      have hc := hrest c cs rfl
      simp [takeDigits, hc]
  | cons d ds ih =>
    have hd := hds d (by simp)
    have hih := ih fun c hc => hds c (by simp [hc])
    simp [takeDigits, hd, hih]

/-! ### C5: whitespace-skipping and first-character lemmas -/

theorem skipWs_cons_ws {c : Char} {s : List Char} (h : isWs c = true) :
    skipWs (c :: s) = skipWs s := by
  have heq : skipWs (c :: s) = if isWs c = true then skipWs s else c :: s := rfl
  rw [heq, h, if_pos rfl]

theorem skipWs_cons_not_ws {c : Char} {s : List Char} (h : isWs c = false) :
    skipWs (c :: s) = c :: s := by
  have heq : skipWs (c :: s) = if isWs c = true then skipWs s else c :: s := rfl
  rw [heq, h]
  simp

theorem skipWs_replicate_space (k : Nat) (s : List Char) :
    skipWs (List.replicate k ' ' ++ s) = skipWs s := by
  induction k with
  | zero => rfl
  | succ k ih =>
    rw [List.replicate_succ, List.cons_append,
      skipWs_cons_ws (show isWs ' ' = true from rfl)]
    exact ih

theorem skipWs_ind (l : Nat) (s : List Char) : skipWs (ind l ++ s) = skipWs s :=
  skipWs_replicate_space (2 * l) s

theorem digit_not_ws {c : Char} (h : isDigitCh c = true) :
    isWs c = false ∧ c ≠ ']' := by
  refine ⟨?_, ?_⟩
  · by_contra hws
    simp only [Bool.not_eq_false] at hws
    unfold isWs at hws
    rcases Bool.or_eq_true_iff.1 hws with hw | hw
    · rcases Bool.or_eq_true_iff.1 hw with hw2 | hw2
      · rcases Bool.or_eq_true_iff.1 hw2 with hw3 | hw3
        · rw [decide_eq_true_iff] at hw3; subst hw3; cases h
        · rw [decide_eq_true_iff] at hw3; subst hw3; cases h
      · rw [decide_eq_true_iff] at hw2; subst hw2; cases h
    · rw [decide_eq_true_iff] at hw; subst hw; cases h
  · intro heq
    subst heq
    cases h

theorem renderV_head (lvl : Nat) (x : PyVal) :
    ∃ c cs, renderV lvl x = c :: cs ∧ isWs c = false ∧ c ≠ ']' := by
  cases x with
  | none => exact ⟨'n', _, rfl, rfl, by decide⟩
  | bool b =>
    cases b with
    | true => exact ⟨'t', _, rfl, rfl, by decide⟩
    | false => exact ⟨'f', _, rfl, rfl, by decide⟩
  | int n =>
    by_cases hn : n < 0
    · refine ⟨'-', (natDigits n.natAbs), ?_, rfl, by decide⟩
      show (intStr n).data = _
      unfold intStr
      rw [if_pos hn]
    · obtain ⟨d, ds, hd⟩ := List.exists_cons_of_ne_nil (natDigits_ne_nil n.natAbs)

      have hdig : isDigitCh d = true := by
        refine natDigits_all_digits n.natAbs d ?_
        rw [hd]
        simp
      obtain ⟨hws, hne⟩ := digit_not_ws hdig
      refine ⟨d, ds, ?_, hws, hne⟩
      show (intStr n).data = _
      unfold intStr
      rw [if_neg hn]
      exact hd
  | str s => exact ⟨'"', _, rfl, rfl, by decide⟩
  | list xs =>
    cases xs with
    | nil => exact ⟨'[', _, rfl, rfl, by decide⟩
    | cons y ys => exact ⟨'[', _, rfl, rfl, by decide⟩
  | dict es =>
    cases es with
    | nil => exact ⟨'\x7b', _, rfl, rfl, by decide⟩
    | cons e es2 => exact ⟨'\x7b', _, rfl, rfl, by decide⟩

theorem skipWs_renderV (lvl : Nat) (x : PyVal) (rest : List Char) :
    skipWs (renderV lvl x ++ rest) = renderV lvl x ++ rest := by
  obtain ⟨c, cs, hr, hws, _⟩ := renderV_head lvl x
  rw [hr, List.cons_append, skipWs_cons_not_ws hws]

/-! ### C5: string-escape round trip -/

theorem hexVal_hexDigit_fin : ∀ d : Fin 16, hexVal (hexDigit d.1) = some d.1 := by decide

theorem hexVal_hexDigit {n : Nat} (h : n < 16) : hexVal (hexDigit n) = some n :=
  hexVal_hexDigit_fin ⟨n, h⟩

theorem hex4Val_parts {m : Nat} (h : m < 65536) :
    hex4Val (hexDigit (m / 4096 % 16)) (hexDigit (m / 256 % 16))
      (hexDigit (m / 16 % 16)) (hexDigit (m % 16)) = some m := by
  unfold hex4Val
  rw [hexVal_hexDigit (Nat.mod_lt _ (by omega)), hexVal_hexDigit (Nat.mod_lt _ (by omega)),
    hexVal_hexDigit (Nat.mod_lt _ (by omega)), hexVal_hexDigit (Nat.mod_lt _ (by omega))]
  show some (m / 4096 % 16 * 4096 + m / 256 % 16 * 256 + m / 16 % 16 * 16 + m % 16) = some m
  congr 1
  omega

theorem char_valid_facts (c : Char) :
    c.toNat < 55296 ∨ (57343 < c.toNat ∧ c.toNat < 1114112) :=
  c.valid

theorem char_toNat_lt (c : Char) : c.toNat < 1114112 := by
  rcases char_valid_facts c with h | h
  · omega
  · exact h.2

theorem char_not_surrogate (c : Char) : ¬(55296 ≤ c.toNat ∧ c.toNat ≤ 57343) := by
  rcases char_valid_facts c with h | h <;> omega

theorem parseStrBody_uEsc (a b c2 d : Char) (rest2 : List Char) (v : Nat)
    (hv : hex4Val a b c2 d = some v) (hno : ¬(55296 ≤ v ∧ v ≤ 57343)) :
    parseStrBody ('\\' :: 'u' :: a :: b :: c2 :: d :: rest2) =
      (parseStrBody rest2).map fun p => (Char.ofNat v :: p.1, p.2) := by
  conv_lhs => whnf
  rw [hv]
  show (if 55296 ≤ v ∧ v ≤ 56319 then parseLowSur v rest2
    else if 56320 ≤ v ∧ v ≤ 57343 then Option.none
    else (parseStrBody rest2).map fun p => (Char.ofNat v :: p.1, p.2)) = _
  rw [if_neg (by omega), if_neg (by omega)]

theorem parseStrBody_surrogate (a b c2 d a2 b2 c3 d2 : Char) (rest3 : List Char) (v w : Nat)
    (hv : hex4Val a b c2 d = some v) (hw : hex4Val a2 b2 c3 d2 = some w)
    (h1 : 55296 ≤ v ∧ v ≤ 56319) (h2 : 56320 ≤ w ∧ w ≤ 57343) :
    parseStrBody ('\\' :: 'u' :: a :: b :: c2 :: d :: '\\' :: 'u' :: a2 :: b2 :: c3 :: d2 :: rest3) =
      (parseStrBody rest3).map fun p =>
        (Char.ofNat (65536 + (v - 55296) * 1024 + (w - 56320)) :: p.1, p.2) := by
  conv_lhs => whnf
  rw [hv]
  show (if 55296 ≤ v ∧ v ≤ 56319 then
      parseLowSur v ('\\' :: 'u' :: a2 :: b2 :: c3 :: d2 :: rest3) else _) = _
  rw [if_pos h1]
  conv_lhs => whnf
  rw [hw]
  show (if 56320 ≤ w ∧ w ≤ 57343 then
      (parseStrBody rest3).map fun p =>
        (Char.ofNat (65536 + (v - 55296) * 1024 + (w - 56320)) :: p.1, p.2)
    else Option.none) = _
  rw [if_pos h2]

theorem parseStrBody_escChar (c : Char) (rest : List Char) :
    parseStrBody (escChar c ++ rest) =
      (parseStrBody rest).map (fun p => (c :: p.1, p.2)) := by
  unfold escChar
  by_cases h1 : c = '"'
  · rw [if_pos h1]
    subst h1
    rfl
  rw [if_neg h1]
  by_cases h2 : c = '\\'
  · rw [if_pos h2]
    subst h2
    rfl
  rw [if_neg h2]
  by_cases h3 : c = '\n'
  · rw [if_pos h3]
    subst h3
    rfl
  rw [if_neg h3]
  by_cases h4 : c = '\r'
  · rw [if_pos h4]
    subst h4
    rfl
  rw [if_neg h4]
  by_cases h5 : c = '\t'
  · rw [if_pos h5]
    subst h5
    rfl
  rw [if_neg h5]
  by_cases h6 : c.toNat = 8
  · rw [if_pos h6]
    have hc : c = Char.ofNat 8 := by rw [← h6, Char.ofNat_toNat]
    rw [hc]
    rfl
  rw [if_neg h6]
  by_cases h7 : c.toNat = 12
  · rw [if_pos h7]
    have hc : c = Char.ofNat 12 := by rw [← h7, Char.ofNat_toNat]
    rw [hc]
    rfl
  rw [if_neg h7]
  by_cases h8 : c.toNat < 32
  · rw [if_pos h8]
    show parseStrBody ('\\' :: 'u' :: hexDigit (c.toNat / 4096 % 16) ::
      hexDigit (c.toNat / 256 % 16) :: hexDigit (c.toNat / 16 % 16) ::
      hexDigit (c.toNat % 16) :: rest) = _
    rw [parseStrBody_uEsc _ _ _ _ rest c.toNat (hex4Val_parts (by omega)) (by omega),
      Char.ofNat_toNat]
  rw [if_neg h8]
  by_cases h9 : c.toNat ≤ 126
  · rw [if_pos h9]
    show parseStrBody (c :: rest) = _
    rw [parseStrBody.eq_def]
    show (if c = '"' then some ([], rest)
      else if c = '\\' then _
      else if c.toNat < 32 then Option.none
      else (parseStrBody rest).map fun p => (c :: p.1, p.2)) = _
    rw [if_neg h1, if_neg h2, if_neg h8]
  rw [if_neg h9]
  by_cases h10 : c.toNat ≤ 65535
  · rw [if_pos h10]
    have hsur := char_not_surrogate c
    show parseStrBody ('\\' :: 'u' :: hexDigit (c.toNat / 4096 % 16) ::
      hexDigit (c.toNat / 256 % 16) :: hexDigit (c.toNat / 16 % 16) ::
      hexDigit (c.toNat % 16) :: rest) = _
    rw [parseStrBody_uEsc _ _ _ _ rest c.toNat (hex4Val_parts (by omega)) (by omega),
      Char.ofNat_toNat]
  rw [if_neg h10]
  have hlt := char_toNat_lt c
  have hmod : (c.toNat - 65536) % 1024 < 1024 := Nat.mod_lt _ (by omega)
  have hdiv : (c.toNat - 65536) / 1024 ≤ 1023 := by omega
  show parseStrBody ('\\' :: 'u' ::
    hexDigit ((55296 + (c.toNat - 65536) / 1024) / 4096 % 16) ::
    hexDigit ((55296 + (c.toNat - 65536) / 1024) / 256 % 16) ::
    hexDigit ((55296 + (c.toNat - 65536) / 1024) / 16 % 16) ::
    hexDigit ((55296 + (c.toNat - 65536) / 1024) % 16) :: '\\' :: 'u' ::
    hexDigit ((56320 + (c.toNat - 65536) % 1024) / 4096 % 16) ::
    hexDigit ((56320 + (c.toNat - 65536) % 1024) / 256 % 16) ::
    hexDigit ((56320 + (c.toNat - 65536) % 1024) / 16 % 16) ::
    hexDigit ((56320 + (c.toNat - 65536) % 1024) % 16) :: rest) = _
  rw [parseStrBody_surrogate _ _ _ _ _ _ _ _ rest
    (55296 + (c.toNat - 65536) / 1024) (56320 + (c.toNat - 65536) % 1024)
    (hex4Val_parts (by omega)) (hex4Val_parts (by omega))
    ⟨by omega, by omega⟩ ⟨by omega, by omega⟩]
  have harith : 65536 + (55296 + (c.toNat - 65536) / 1024 - 55296) * 1024 +
      (56320 + (c.toNat - 65536) % 1024 - 56320) = c.toNat := by omega
  rw [harith, Char.ofNat_toNat]


theorem parseStrBody_escBody (cs rest : List Char) :
    parseStrBody (escBody cs ++ '"' :: rest) = some (cs, rest) := by
  induction cs with
  | nil =>
    show parseStrBody ('"' :: rest) = _
    rfl
  | cons c cs ih =>
    show parseStrBody ((escChar c ++ escBody cs) ++ '"' :: rest) = _
    rw [List.append_assoc, parseStrBody_escChar, ih]
    rfl

theorem sizeV_pos (x : PyVal) : 1 ≤ sizeV x := by
  cases x <;> unfold sizeV <;> omega

theorem sizeL_pos (xs : List PyVal) : 1 ≤ sizeL xs := by
  cases xs <;> unfold sizeL <;> omega

theorem sizeD_pos (es : List (String × PyVal)) : 1 ≤ sizeD es := by
  cases es <;> unfold sizeD <;> omega

theorem some_bind_eq {α β : Type} (a : α) (g : α → Option β) : (some a).bind g = g a := rfl

theorem parseVal_succ (f : Nat) (c : Char) (r : List Char) :
    parseVal (f + 1) (c :: r) =
      (if isDigitCh c then
        if numOk (takeDigits r).2 then
          some (.int (digitsVal (c :: (takeDigits r).1) : Int), (takeDigits r).2)
        else Option.none
      else if c = '-' then
        if (takeDigits r).1.isEmpty then Option.none
        else if numOk (takeDigits r).2 then
          some (.int (-(digitsVal (takeDigits r).1 : Int)), (takeDigits r).2)
        else Option.none
      else if c = '"' then
        (parseStrBody r).map fun p => (.str ⟨p.1⟩, p.2)
      else if c = '[' then
        if headIs (skipWs r) ']' then some (.list [], (skipWs r).tail)
        else (parseElems f (skipWs r)).map fun p => (.list p.1, p.2)
      else if c = '\x7b' then
        if headIs (skipWs r) '\x7d' then some (.dict [], (skipWs r).tail)
        else (parseMembers f (skipWs r)).map fun p => (.dict p.1, p.2)
      else if c = 'n' then (dropPrefixQ ['u', 'l', 'l'] r).map fun r2 => (.none, r2)
      else if c = 't' then (dropPrefixQ ['r', 'u', 'e'] r).map fun r2 => (.bool true, r2)
      else if c = 'f' then (dropPrefixQ ['a', 'l', 's', 'e'] r).map fun r2 => (.bool false, r2)
      else Option.none) := rfl

theorem parseElems_succ (f : Nat) (s : List Char) :
    parseElems (f + 1) s =
      (parseVal f (skipWs s)).bind fun p =>
        if headIs (skipWs p.2) ']' then some ([p.1], (skipWs p.2).tail)
        else if headIs (skipWs p.2) ',' then
          (parseElems f (skipWs p.2).tail).map fun q => (p.1 :: q.1, q.2)
        else Option.none := rfl

theorem parseMembers_succ (f : Nat) (s : List Char) :
    parseMembers (f + 1) s =
      (if headIs (skipWs s) '"' then
        (parseStrBody (skipWs s).tail).bind fun pk =>
          if headIs (skipWs pk.2) ':' then
            (parseVal f (skipWs ((skipWs pk.2).tail))).bind fun pv =>
              if headIs (skipWs pv.2) '\x7d' then
                some ([(⟨pk.1⟩, pv.1)], (skipWs pv.2).tail)
              else if headIs (skipWs pv.2) ',' then
                (parseMembers f (skipWs pv.2).tail).map fun q =>
                  ((⟨pk.1⟩, pv.1) :: q.1, q.2)
              else Option.none
          else Option.none
      else Option.none) := rfl

theorem sizeV_list (xs : List PyVal) : sizeV (.list xs) = sizeL xs + 1 := by
  simp only [sizeV]

theorem sizeV_dict (es : List (String × PyVal)) : sizeV (.dict es) = sizeD es + 1 := by
  simp only [sizeV]

theorem sizeL_cons (x : PyVal) (xs : List PyVal) :
    sizeL (x :: xs) = sizeV x + sizeL xs + 1 := by
  simp only [sizeL]

theorem sizeD_cons (e : String × PyVal) (es : List (String × PyVal)) :
    sizeD (e :: es) = sizeV e.2 + sizeD es + 1 := by
  simp only [sizeD]

theorem renderPair_eq (lvl : Nat) (e : String × PyVal) (rest : List Char) :
    renderPair lvl e ++ rest =
      '"' :: (escBody e.1.data ++ '"' :: (':' :: ' ' :: (renderV lvl e.2 ++ rest))) := by
  unfold renderPair escString
  simp [List.append_assoc]

theorem skipWs_renderPair (lvl : Nat) (e : String × PyVal) (rest : List Char) :
    skipWs (renderPair lvl e ++ rest) = renderPair lvl e ++ rest := by
  rw [renderPair_eq, skipWs_cons_not_ws (show isWs '"' = false from rfl)]

theorem parse_renderV (f : Nat) :
    (∀ x lvl rest, sizeV x ≤ f → numStop rest = true →
      parseVal f (renderV lvl x ++ rest) = some (x, rest)) ∧
    (∀ x xs lvl lvl2 rest s, sizeL (x :: xs) ≤ f →
      skipWs s = renderV lvl x ++ (renderItems lvl xs ++ '\n' :: (ind lvl2 ++ ']' :: rest)) →
      parseElems f s = some (x :: xs, rest)) ∧
    (∀ e es lvl lvl2 rest s, sizeD (e :: es) ≤ f →
      skipWs s = renderPair lvl e ++ (renderPairs lvl es ++ '\n' :: (ind lvl2 ++ '\x7d' :: rest)) →
      parseMembers f s = some (e :: es, rest)) := by
  induction f with
  | zero =>
    refine ⟨?_, ?_, ?_⟩
    · intro x lvl rest hsz _
      have := sizeV_pos x
      omega
    · intro x xs lvl lvl2 rest s hsz _
      have h1 := sizeV_pos x
      have h2 := sizeL_pos xs
      have h3 := sizeL_cons x xs
      omega
    · intro e es lvl lvl2 rest s hsz _
      have h1 := sizeV_pos e.2
      have h2 := sizeD_pos es
      have h3 := sizeD_cons e es
      omega
  | succ f ih =>
    obtain ⟨ihP, ihQ, ihR⟩ := ih
    refine ⟨?_, ?_, ?_⟩
    · intro x lvl rest hsz hstop
      cases x with
      | none => rfl
      | bool b => cases b <;> rfl
      | int n =>
        have hrv0 : renderV lvl (.int n) = (intStr n).data := rfl
        by_cases hn : n < 0
        · have hrv : renderV lvl (.int n) = '-' :: natDigits n.natAbs := by
            rw [hrv0]
            unfold intStr
            rw [if_pos hn]
          rw [hrv]
          cases hnd : natDigits n.natAbs with
          | nil => exact absurd hnd (natDigits_ne_nil _)
          | cons d ds =>
            show parseVal (f + 1) ('-' :: ((d :: ds) ++ rest)) = _
            rw [parseVal_succ, if_neg (by decide), if_pos rfl]
            have hall : ∀ c0 ∈ d :: ds, isDigitCh c0 = true := by
              rw [← hnd]
              exact natDigits_all_digits _
            have htd : takeDigits ((d :: ds) ++ rest) = (d :: ds, rest) :=
              takeDigits_append hall (numStop_head hstop)
            have h1 : (takeDigits ((d :: ds) ++ rest)).1 = d :: ds := by rw [htd]
            have h2 : (takeDigits ((d :: ds) ++ rest)).2 = rest := by rw [htd]
            rw [h1, h2, if_neg (by simp), if_pos (numStop_numOk hstop)]
            have hdv : digitsVal (d :: ds) = n.natAbs := by
              rw [← hnd, digitsVal_natDigits]
            rw [hdv]
            have hneg : -((n.natAbs : Nat) : Int) = n := by omega
            rw [hneg]
        · have hrv : renderV lvl (.int n) = natDigits n.natAbs := by
            rw [hrv0]
            unfold intStr
            rw [if_neg hn]
          rw [hrv]
          cases hnd : natDigits n.natAbs with
          | nil => exact absurd hnd (natDigits_ne_nil _)
          | cons d ds =>
            show parseVal (f + 1) (d :: (ds ++ rest)) = _
            rw [parseVal_succ]
            have hd : isDigitCh d = true := by
              have hh := natDigits_all_digits n.natAbs
              rw [hnd] at hh
              exact hh d (List.mem_cons_self d ds)
            rw [if_pos hd]
            have hall : ∀ c0 ∈ ds, isDigitCh c0 = true := by
              intro c0 hc0
              have hh := natDigits_all_digits n.natAbs
              rw [hnd] at hh
              exact hh c0 (List.mem_cons_of_mem d hc0)
            have htd : takeDigits (ds ++ rest) = (ds, rest) :=
              takeDigits_append hall (numStop_head hstop)
            have h1 : (takeDigits (ds ++ rest)).1 = ds := by rw [htd]
            have h2 : (takeDigits (ds ++ rest)).2 = rest := by rw [htd]
            rw [h1, h2, if_pos (numStop_numOk hstop)]
            have hdv : digitsVal (d :: ds) = n.natAbs := by
              rw [← hnd, digitsVal_natDigits]
            rw [hdv]
            have hpos : ((n.natAbs : Nat) : Int) = n := by omega
            rw [hpos]
      | str s =>
        have hshape : renderV lvl (.str s) ++ rest = '"' :: (escBody s.data ++ '"' :: rest) := by
          show ('"' :: (escBody s.data ++ ['"'])) ++ rest = _
          simp [List.append_assoc]
        rw [hshape, parseVal_succ, if_neg (by decide), if_neg (by decide), if_pos rfl,
          parseStrBody_escBody]
        rfl
      | list xs =>
        cases xs with
        | nil => rfl
        | cons x xs =>
          have hrv : renderV lvl (.list (x :: xs)) =
              '[' :: '\n' :: (ind (lvl + 1) ++ renderV (lvl + 1) x ++ renderItems (lvl + 1) xs
                ++ '\n' :: (ind lvl ++ [']'])) := by
            simp only [renderV]
          have hshape : renderV lvl (.list (x :: xs)) ++ rest =
              '[' :: '\n' :: (ind (lvl + 1) ++ (renderV (lvl + 1) x ++ (renderItems (lvl + 1) xs
                ++ '\n' :: (ind lvl ++ ']' :: rest)))) := by
            rw [hrv]
            simp [List.append_assoc]
          rw [hshape, parseVal_succ, if_neg (by decide), if_neg (by decide), if_neg (by decide),
            if_pos rfl]
          have hsw : skipWs ('\n' :: (ind (lvl + 1) ++ (renderV (lvl + 1) x ++
              (renderItems (lvl + 1) xs ++ '\n' :: (ind lvl ++ ']' :: rest))))) =
              renderV (lvl + 1) x ++ (renderItems (lvl + 1) xs ++ '\n' :: (ind lvl ++ ']' :: rest)) := by
            rw [skipWs_cons_ws (show isWs '\n' = true from rfl), skipWs_ind, skipWs_renderV]
          rw [hsw]
          obtain ⟨c0, cs0, hr0, hws0, hne0⟩ := renderV_head (lvl + 1) x
          have hhd : headIs (renderV (lvl + 1) x ++ (renderItems (lvl + 1) xs ++
              '\n' :: (ind lvl ++ ']' :: rest))) ']' = false := by
            rw [hr0, List.cons_append]
            show (c0 == ']') = false
            exact beq_eq_false_iff_ne.mpr hne0
          rw [if_neg (by simp [hhd])]
          have hq := ihQ x xs (lvl + 1) lvl rest
            (renderV (lvl + 1) x ++ (renderItems (lvl + 1) xs ++ '\n' :: (ind lvl ++ ']' :: rest)))
            (by have h1 := sizeV_list (x :: xs); omega)
            (skipWs_renderV (lvl + 1) x _)
          rw [hq]
          rfl
      | dict es =>
        cases es with
        | nil => rfl
        | cons e es =>
          have hrv : renderV lvl (.dict (e :: es)) =
              '\x7b' :: '\n' :: (ind (lvl + 1) ++ renderPair (lvl + 1) e ++ renderPairs (lvl + 1) es
                ++ '\n' :: (ind lvl ++ ['\x7d'])) := by
            simp only [renderV]
          have hshape : renderV lvl (.dict (e :: es)) ++ rest =
              '\x7b' :: '\n' :: (ind (lvl + 1) ++ (renderPair (lvl + 1) e ++ (renderPairs (lvl + 1) es
                ++ '\n' :: (ind lvl ++ '\x7d' :: rest)))) := by
            rw [hrv]
            simp [List.append_assoc]
          rw [hshape, parseVal_succ, if_neg (by decide), if_neg (by decide), if_neg (by decide),
            if_neg (by decide), if_pos rfl]
          have hsw : skipWs ('\n' :: (ind (lvl + 1) ++ (renderPair (lvl + 1) e ++
              (renderPairs (lvl + 1) es ++ '\n' :: (ind lvl ++ '\x7d' :: rest))))) =
              renderPair (lvl + 1) e ++ (renderPairs (lvl + 1) es ++ '\n' :: (ind lvl ++ '\x7d' :: rest)) := by
            rw [skipWs_cons_ws (show isWs '\n' = true from rfl), skipWs_ind, skipWs_renderPair]
          rw [hsw]
          have hhd : headIs (renderPair (lvl + 1) e ++ (renderPairs (lvl + 1) es ++
              '\n' :: (ind lvl ++ '\x7d' :: rest))) '\x7d' = false := by
            rw [renderPair_eq]
            rfl
          rw [if_neg (by simp [hhd])]
          have hr := ihR e es (lvl + 1) lvl rest
            (renderPair (lvl + 1) e ++ (renderPairs (lvl + 1) es ++ '\n' :: (ind lvl ++ '\x7d' :: rest)))
            (by have h1 := sizeV_dict (e :: es); omega)
            (skipWs_renderPair (lvl + 1) e _)
          rw [hr]
          rfl
    · intro x xs lvl lvl2 rest s hsz hskip
      rw [parseElems_succ, hskip]
      have hstop2 : numStop (renderItems lvl xs ++ '\n' :: (ind lvl2 ++ ']' :: rest)) = true := by
        cases xs <;> rfl
      have hp := ihP x lvl (renderItems lvl xs ++ '\n' :: (ind lvl2 ++ ']' :: rest))
        (by have h1 := sizeL_cons x xs; have h2 := sizeL_pos xs; omega) hstop2
      rw [hp]
      simp only [some_bind_eq]
      cases xs with
      | nil =>
        have hT : renderItems lvl ([] : List PyVal) ++ '\n' :: (ind lvl2 ++ ']' :: rest) =
            '\n' :: (ind lvl2 ++ ']' :: rest) := rfl
        rw [hT]
        have hsw2 : skipWs ('\n' :: (ind lvl2 ++ ']' :: rest)) = ']' :: rest := by
          rw [skipWs_cons_ws (show isWs '\n' = true from rfl), skipWs_ind,
            skipWs_cons_not_ws (show isWs ']' = false from rfl)]
        rw [hsw2, if_pos (show headIs (']' :: rest) ']' = true from rfl)]
        rfl
      | cons x2 xs2 =>
        have hT : renderItems lvl (x2 :: xs2) ++ '\n' :: (ind lvl2 ++ ']' :: rest) =
            ',' :: '\n' :: (ind lvl ++ (renderV lvl x2 ++ (renderItems lvl xs2 ++
              '\n' :: (ind lvl2 ++ ']' :: rest)))) := by
          simp only [renderItems]
          simp [List.append_assoc]
        rw [hT]
        have hsw2 : skipWs (',' :: '\n' :: (ind lvl ++ (renderV lvl x2 ++ (renderItems lvl xs2 ++
            '\n' :: (ind lvl2 ++ ']' :: rest))))) =
            ',' :: '\n' :: (ind lvl ++ (renderV lvl x2 ++ (renderItems lvl xs2 ++
            '\n' :: (ind lvl2 ++ ']' :: rest)))) :=
          skipWs_cons_not_ws (show isWs ',' = false from rfl)
        rw [hsw2]
        have hc1 : headIs (',' :: '\n' :: (ind lvl ++ (renderV lvl x2 ++ (renderItems lvl xs2 ++
            '\n' :: (ind lvl2 ++ ']' :: rest))))) ']' = false := rfl
        have hc2 : headIs (',' :: '\n' :: (ind lvl ++ (renderV lvl x2 ++ (renderItems lvl xs2 ++
            '\n' :: (ind lvl2 ++ ']' :: rest))))) ',' = true := rfl
        rw [if_neg (by simp [hc1]), if_pos hc2]
        have htl : (',' :: '\n' :: (ind lvl ++ (renderV lvl x2 ++ (renderItems lvl xs2 ++
            '\n' :: (ind lvl2 ++ ']' :: rest))))).tail =
            '\n' :: (ind lvl ++ (renderV lvl x2 ++ (renderItems lvl xs2 ++
            '\n' :: (ind lvl2 ++ ']' :: rest)))) := rfl
        rw [htl]
        have hq2 := ihQ x2 xs2 lvl lvl2 rest
          ('\n' :: (ind lvl ++ (renderV lvl x2 ++ (renderItems lvl xs2 ++
            '\n' :: (ind lvl2 ++ ']' :: rest)))))
          (by have h1 := sizeL_cons x (x2 :: xs2); have h2 := sizeV_pos x; omega)
          (by rw [skipWs_cons_ws (show isWs '\n' = true from rfl), skipWs_ind, skipWs_renderV])
        rw [hq2]
        rfl
    · intro e es lvl lvl2 rest s hsz hskip
      rw [parseMembers_succ, hskip, renderPair_eq]
      have hq : headIs ('"' :: (escBody e.1.data ++ '"' :: (':' :: ' ' :: (renderV lvl e.2 ++
          (renderPairs lvl es ++ '\n' :: (ind lvl2 ++ '\x7d' :: rest)))))) '"' = true := rfl
      rw [if_pos hq]
      have htl : ('"' :: (escBody e.1.data ++ '"' :: (':' :: ' ' :: (renderV lvl e.2 ++
          (renderPairs lvl es ++ '\n' :: (ind lvl2 ++ '\x7d' :: rest)))))).tail =
          escBody e.1.data ++ '"' :: (':' :: ' ' :: (renderV lvl e.2 ++
          (renderPairs lvl es ++ '\n' :: (ind lvl2 ++ '\x7d' :: rest)))) := rfl
      rw [htl, parseStrBody_escBody]
      simp only [some_bind_eq]
      have hsw1 : skipWs (':' :: ' ' :: (renderV lvl e.2 ++ (renderPairs lvl es ++
          '\n' :: (ind lvl2 ++ '\x7d' :: rest)))) =
          ':' :: ' ' :: (renderV lvl e.2 ++ (renderPairs lvl es ++
          '\n' :: (ind lvl2 ++ '\x7d' :: rest))) :=
        skipWs_cons_not_ws (show isWs ':' = false from rfl)
      rw [hsw1]
      have hq2 : headIs (':' :: ' ' :: (renderV lvl e.2 ++ (renderPairs lvl es ++
          '\n' :: (ind lvl2 ++ '\x7d' :: rest)))) ':' = true := rfl
      rw [if_pos hq2]
      have htl2 : (':' :: ' ' :: (renderV lvl e.2 ++ (renderPairs lvl es ++
          '\n' :: (ind lvl2 ++ '\x7d' :: rest)))).tail =
          ' ' :: (renderV lvl e.2 ++ (renderPairs lvl es ++
          '\n' :: (ind lvl2 ++ '\x7d' :: rest))) := rfl
      rw [htl2]
      have hsw2 : skipWs (' ' :: (renderV lvl e.2 ++ (renderPairs lvl es ++
          '\n' :: (ind lvl2 ++ '\x7d' :: rest)))) =
          renderV lvl e.2 ++ (renderPairs lvl es ++ '\n' :: (ind lvl2 ++ '\x7d' :: rest)) := by
        rw [skipWs_cons_ws (show isWs ' ' = true from rfl), skipWs_renderV]
      rw [hsw2]
      have hstop3 : numStop (renderPairs lvl es ++ '\n' :: (ind lvl2 ++ '\x7d' :: rest)) = true := by
        cases es <;> rfl
      have hp := ihP e.2 lvl (renderPairs lvl es ++ '\n' :: (ind lvl2 ++ '\x7d' :: rest))
        (by have h1 := sizeD_cons e es; have h2 := sizeD_pos es; omega) hstop3
      rw [hp]
      simp only [some_bind_eq]
      cases es with
      | nil =>
        have hT : renderPairs lvl ([] : List (String × PyVal)) ++
            '\n' :: (ind lvl2 ++ '\x7d' :: rest) = '\n' :: (ind lvl2 ++ '\x7d' :: rest) := rfl
        rw [hT]
        have hsw3 : skipWs ('\n' :: (ind lvl2 ++ '\x7d' :: rest)) = '\x7d' :: rest := by
          rw [skipWs_cons_ws (show isWs '\n' = true from rfl), skipWs_ind,
            skipWs_cons_not_ws (show isWs '\x7d' = false from rfl)]
        rw [hsw3, if_pos (show headIs ('\x7d' :: rest) '\x7d' = true from rfl)]
        rfl
      | cons e2 es2 =>
        have hT : renderPairs lvl (e2 :: es2) ++ '\n' :: (ind lvl2 ++ '\x7d' :: rest) =
            ',' :: '\n' :: (ind lvl ++ (renderPair lvl e2 ++ (renderPairs lvl es2 ++
              '\n' :: (ind lvl2 ++ '\x7d' :: rest)))) := by
          simp only [renderPairs]
          simp [List.append_assoc]
        rw [hT]
        have hsw3 : skipWs (',' :: '\n' :: (ind lvl ++ (renderPair lvl e2 ++ (renderPairs lvl es2 ++
            '\n' :: (ind lvl2 ++ '\x7d' :: rest))))) =
            ',' :: '\n' :: (ind lvl ++ (renderPair lvl e2 ++ (renderPairs lvl es2 ++
            '\n' :: (ind lvl2 ++ '\x7d' :: rest)))) :=
          skipWs_cons_not_ws (show isWs ',' = false from rfl)
        rw [hsw3]
        have hc1 : headIs (',' :: '\n' :: (ind lvl ++ (renderPair lvl e2 ++ (renderPairs lvl es2 ++
            '\n' :: (ind lvl2 ++ '\x7d' :: rest))))) '\x7d' = false := rfl
        have hc2 : headIs (',' :: '\n' :: (ind lvl ++ (renderPair lvl e2 ++ (renderPairs lvl es2 ++
            '\n' :: (ind lvl2 ++ '\x7d' :: rest))))) ',' = true := rfl
        rw [if_neg (by simp [hc1]), if_pos hc2]
        have htl3 : (',' :: '\n' :: (ind lvl ++ (renderPair lvl e2 ++ (renderPairs lvl es2 ++
            '\n' :: (ind lvl2 ++ '\x7d' :: rest))))).tail =
            '\n' :: (ind lvl ++ (renderPair lvl e2 ++ (renderPairs lvl es2 ++
            '\n' :: (ind lvl2 ++ '\x7d' :: rest)))) := rfl
        rw [htl3]
        have hr2 := ihR e2 es2 lvl lvl2 rest
          ('\n' :: (ind lvl ++ (renderPair lvl e2 ++ (renderPairs lvl es2 ++
            '\n' :: (ind lvl2 ++ '\x7d' :: rest)))))
          (by have h1 := sizeD_cons e (e2 :: es2); have h2 := sizeV_pos e.2; omega)
          (by rw [skipWs_cons_ws (show isWs '\n' = true from rfl), skipWs_ind, skipWs_renderPair])
        rw [hr2]
        rfl

mutual

theorem sizeV_le (x : PyVal) (lvl : Nat) : sizeV x ≤ (renderV lvl x).length + 1 := by
  cases x with
  | none => simp [sizeV, renderV]
  | bool b => cases b <;> simp [sizeV, renderV]
  | int n =>
    have h : sizeV (.int n) = 1 := rfl
    omega
  | str s =>
    have h : sizeV (.str s) = 1 := rfl
    omega
  | list xs =>
    cases xs with
    | nil => simp [sizeV, sizeL, renderV]
    | cons y ys =>
      have h1 := sizeV_le y (lvl + 1)
      have h2 := sizeL_le ys (lvl + 1)
      rw [sizeV_list, sizeL_cons]
      simp only [renderV, List.length_cons, List.length_append, List.length_singleton]
      omega
  | dict es =>
    cases es with
    | nil => simp [sizeV, sizeD, renderV]
    | cons e2 es2 =>
      have h1 := sizeV_le e2.2 (lvl + 1)
      have h2 := sizeD_le es2 (lvl + 1)
      rw [sizeV_dict, sizeD_cons]
      simp only [renderV, renderPair, List.length_cons, List.length_append,
        List.length_singleton]
      omega

theorem sizeL_le (xs : List PyVal) (lvl : Nat) : sizeL xs ≤ (renderItems lvl xs).length + 1 := by
  cases xs with
  | nil => simp [sizeL, renderItems]
  | cons y ys =>
    have h1 := sizeV_le y lvl
    have h2 := sizeL_le ys lvl
    rw [sizeL_cons]
    simp only [renderItems, List.length_cons, List.length_append]
    omega

theorem sizeD_le (es : List (String × PyVal)) (lvl : Nat) :
    sizeD es ≤ (renderPairs lvl es).length + 1 := by
  cases es with
  | nil => simp [sizeD, renderPairs]
  | cons e2 es2 =>
    have h1 := sizeV_le e2.2 lvl
    have h2 := sizeD_le es2 lvl
    rw [sizeD_cons]
    simp only [renderPairs, renderPair, List.length_cons, List.length_append]
    omega

end

/-- C5: for every value composed only of strings, integers, booleans, null and
nested mappings/sequences (with the distinct mapping keys Python dicts
guarantee), parsing the payload produced by `export_to_json` with the
`json.loads` model yields the original value back, and the payload is
pretty-printed with a stable two-space indentation step: each nesting level
indents exactly two spaces beyond the enclosing one. -/
theorem c5_json_round_trip (x : PyVal) (sid : Option String) (now : DT)
    (payload fname : String) (hwf : wfKeys x = true)
    (hexp : exportToJson x sid now = .ok (payload, fname)) :
    parseJson payload = some x ∧ (∀ lvl, ind (lvl + 1) = ind lvl ++ [' ', ' ']) := by
  have h2 : Except.ok (ε := String)
      (dumps x, mkFilename "property_search_" sid now ".json") = .ok (payload, fname) := hexp
  have hpl : payload = dumps x := by
    injection h2 with h3
    exact (congrArg Prod.fst h3).symm
  constructor
  · rw [hpl]
    unfold parseJson
    have hdata : (dumps x).data = renderV 0 x := rfl
    rw [hdata]
    have h0 : skipWs (renderV 0 x) = renderV 0 x := by
      have h := skipWs_renderV 0 x []
      simpa using h
    rw [h0]
    have hP := (parse_renderV ((renderV 0 x).length + 1)).1 x 0 []
      (by have := sizeV_le x 0; omega) rfl
    rw [List.append_nil] at hP
    rw [hP]
    rfl
  · intro lvl
    unfold ind
    have h2l : 2 * (lvl + 1) = 2 * lvl + 2 := by ring
    rw [h2l, List.replicate_add]
    rfl

theorem c5_json_round_trip_witness :
    wfKeys (.dict [("a", .int 1), ("b", .list [.str "x", .none])]) = true ∧
    (parseJson (dumps (.dict [("a", .int 1), ("b", .list [.str "x", .none])])) =
        some (.dict [("a", .int 1), ("b", .list [.str "x", .none])]) ∧
      (∀ lvl, ind (lvl + 1) = ind lvl ++ [' ', ' '])) :=
  ⟨by decide,
   c5_json_round_trip (.dict [("a", .int 1), ("b", .list [.str "x", .none])])
     Option.none t0 (dumps (.dict [("a", .int 1), ("b", .list [.str "x", .none])]))
     (mkFilename "property_search_" Option.none t0 ".json") (by decide) rfl⟩

end ExportUtils
